import Mathlib

/-!
Verification of the marketplace workflow engine
(`backend/app/{projects,requests,tasks,submissions}/service.py` and
`backend/app/models/*.py`).

The engine is embedded shallowly: the persisted state (the four entity
tables plus a fresh-id counter standing for uuid4 generation) is a
`DB` structure, every service function becomes a pure function
`DB → … → Except HTTPError (DB × entity)` mirroring the Python control
flow check-for-check (an `HTTPException(status_code, detail)` becomes
`.error ⟨status_code, detail⟩`, and a raised exception rolls the
transaction back, so an error result carries no successor state).
Timestamp columns (`created_at`, `updated_at`, `submitted_at`,
`reviewed_at`) and the `budget`/`deadline` columns are omitted: no
branch of the translated code reads them.  The Blob Store
(`storage/service.py`) is external infrastructure: the four
`validate_zip` checks are translated faithfully over an `UploadFile`
record whose `is_zipfile` field stands for the opaque
`zipfile.is_zipfile` structural check, and MinIO availability is a
boolean parameter (`upload_file` raises `RuntimeError` — surfaced by
FastAPI as a 500 — when the client is not configured).
-/

namespace Marketplace

/-- `UserRole` from `models/user.py`. -/
inductive UserRole where
  | ADMIN
  | BUYER
  | SOLVER
deriving DecidableEq

/-- `ProjectStatus` from `models/project.py`. -/
inductive ProjectStatus where
  | OPEN
  | ASSIGNED
  | COMPLETED
deriving DecidableEq

/-- `RequestStatus` from `models/request.py`. -/
inductive RequestStatus where
  | PENDING
  | ACCEPTED
  | REJECTED
deriving DecidableEq

/-- `TaskStatus` from `models/task.py`. -/
inductive TaskStatus where
  | IN_PROGRESS
  | SUBMITTED
  | COMPLETED
  | REVISION_REQUESTED
deriving DecidableEq

/-- `SubmissionStatus` from `models/submission.py`. -/
inductive SubmissionStatus where
  | PENDING_REVIEW
  | ACCEPTED
  | REJECTED
deriving DecidableEq

/-- `task.status.value` as interpolated into the error detail of
`create_submission` (`submissions/service.py`, step 2). -/
def TaskStatus.value : TaskStatus → String
  | .IN_PROGRESS => "IN_PROGRESS"
  | .SUBMITTED => "SUBMITTED"
  | .COMPLETED => "COMPLETED"
  | .REVISION_REQUESTED => "REVISION_REQUESTED"

/-- The acting user as handed to every service function by the identity
layer (`dependencies.py`): an id plus a role. -/
structure User where
  id : Nat
  role : UserRole
deriving DecidableEq

/-- `Project` table (`models/project.py`); `budget`, `deadline` and the
timestamps are omitted (never read by any translated branch). -/
structure Project where
  id : Nat
  title : String
  description : String
  status : ProjectStatus
  buyer_id : Nat
  assigned_solver_id : Option Nat
deriving DecidableEq

/-- `ProjectRequest` table (`models/request.py`). -/
structure ProjectRequest where
  id : Nat
  project_id : Nat
  solver_id : Nat
  cover_letter : String
  status : RequestStatus
deriving DecidableEq

/-- `Task` table (`models/task.py`). -/
structure Task where
  id : Nat
  project_id : Nat
  created_by : Nat
  title : String
  description : String
  status : TaskStatus
deriving DecidableEq

/-- `Submission` table (`models/submission.py`). -/
structure Submission where
  id : Nat
  task_id : Nat
  file_url : String
  file_name : String
  file_size : Nat
  notes : Option String
  status : SubmissionStatus
  reviewer_notes : Option String
deriving DecidableEq

/-- A raised `HTTPException(status_code=…, detail=…)`. -/
structure HTTPError where
  status : Nat
  detail : String
deriving DecidableEq

/-- The persisted workflow state: the four entity tables.  `nextId`
stands for the uuid4 generator — every id ever handed out is below it,
so freshly generated ids never collide with existing rows. -/
structure DB where
  projects : List Project
  requests : List ProjectRequest
  tasks : List Task
  submissions : List Submission
  nextId : Nat
deriving DecidableEq

/-- The empty store (fresh database, no rows). -/
def DB.empty : DB := ⟨[], [], [], [], 0⟩

/-- `session.get(Project, pid)`. -/
def DB.getProject (db : DB) (pid : Nat) : Option Project :=
  db.projects.find? (fun p => p.id == pid)

/-- `session.get(ProjectRequest, rid)`. -/
def DB.getRequest (db : DB) (rid : Nat) : Option ProjectRequest :=
  db.requests.find? (fun r => r.id == rid)

/-- `session.get(Task, tid)`. -/
def DB.getTask (db : DB) (tid : Nat) : Option Task :=
  db.tasks.find? (fun t => t.id == tid)

/-- `session.get(Submission, sid)`. -/
def DB.getSubmission (db : DB) (sid : Nat) : Option Submission :=
  db.submissions.find? (fun s => s.id == sid)

/-- `create_project` (`projects/service.py`): unconditionally inserts a
new `OPEN` project owned by the calling buyer (`buyer_id = buyer.id`,
`assigned_solver_id` defaults to null, status defaults to `OPEN`). -/
def create_project (db : DB) (buyer : User) (title description : String) :
    DB × Project :=
  let project : Project :=
    { id := db.nextId, title := title, description := description,
      status := .OPEN, buyer_id := buyer.id, assigned_solver_id := none }
  ({ db with projects := db.projects ++ [project], nextId := db.nextId + 1 },
   project)

/-- `update_project` (`projects/service.py`): owner-only, `OPEN`-only,
partial update of the metadata fields (omitted columns `budget` and
`deadline` follow the same only-if-provided pattern). -/
def update_project (db : DB) (project_id : Nat) (buyer : User)
    (title description : Option String) : Except HTTPError (DB × Project) :=
  match db.getProject project_id with
  | none => .error ⟨404, "Project not found"⟩
  | some project =>
    if project.buyer_id ≠ buyer.id then .error ⟨403, "Not your project"⟩
    else if project.status ≠ .OPEN then
      .error ⟨400, "Can only update OPEN projects"⟩
    else
      let project' : Project :=
        { project with
          title := title.getD project.title,
          description := description.getD project.description }
      .ok ({ db with
              projects := db.projects.map
                (fun p => if p.id == project_id then project' else p) },
           project')

/-- `create_request` (`requests/service.py`): project must exist and be
`OPEN`; at most one bid per `(project_id, solver_id)` (application-level
check mirroring the DB unique constraint); inserts a `PENDING` request. -/
def create_request (db : DB) (solver : User) (project_id : Nat)
    (cover_letter : String) : Except HTTPError (DB × ProjectRequest) :=
  match db.getProject project_id with
  | none => .error ⟨404, "Project not found"⟩
  | some project =>
    if project.status ≠ .OPEN then
      .error ⟨400, "Project is not open for requests"⟩
    else if db.requests.any
        (fun r => r.project_id == project_id && r.solver_id == solver.id) then
      .error ⟨400, "You already requested this project"⟩
    else
      let request : ProjectRequest :=
        { id := db.nextId, project_id := project_id, solver_id := solver.id,
          cover_letter := cover_letter, status := .PENDING }
      .ok ({ db with requests := db.requests ++ [request],
                     nextId := db.nextId + 1 },
           request)

/-- `accept_request` (`requests/service.py`) — CASCADE A.  Preconditions
in source order: request exists, request `PENDING`, project exists,
buyer owns project, project `OPEN`.  Then, in one transaction: this
request → `ACCEPTED`; bulk update rejecting every other `PENDING`
request of the same project; `project.assigned_solver_id :=
request.solver_id`; `project.status := ASSIGNED`. -/
def accept_request (db : DB) (request_id : Nat) (buyer : User) :
    Except HTTPError (DB × ProjectRequest) :=
  match db.getRequest request_id with
  | none => .error ⟨404, "Request not found"⟩
  | some request =>
    if request.status ≠ .PENDING then .error ⟨400, "Request is not pending"⟩
    else match db.getProject request.project_id with
    | none => .error ⟨404, "Project not found"⟩
    | some project =>
      if project.buyer_id ≠ buyer.id then .error ⟨403, "Not your project"⟩
      else if project.status ≠ .OPEN then .error ⟨400, "Project is not open"⟩
      else
        let request' : ProjectRequest := { request with status := .ACCEPTED }
        let requests' := db.requests.map (fun r =>
          if r.id == request_id then { r with status := RequestStatus.ACCEPTED }
          else if r.project_id == request.project_id && r.id != request_id
              && r.status == RequestStatus.PENDING then
            { r with status := RequestStatus.REJECTED }
          else r)
        let projects' := db.projects.map (fun p =>
          if p.id == request.project_id then
            { p with assigned_solver_id := some request.solver_id,
                     status := ProjectStatus.ASSIGNED }
          else p)
        .ok ({ db with requests := requests', projects := projects' }, request')

/-- `reject_request` (`requests/service.py`): same preconditions as
`accept_request`, then only this request → `REJECTED`, no cascade. -/
def reject_request (db : DB) (request_id : Nat) (buyer : User) :
    Except HTTPError (DB × ProjectRequest) :=
  match db.getRequest request_id with
  | none => .error ⟨404, "Request not found"⟩
  | some request =>
    if request.status ≠ .PENDING then .error ⟨400, "Request is not pending"⟩
    else match db.getProject request.project_id with
    | none => .error ⟨404, "Project not found"⟩
    | some project =>
      if project.buyer_id ≠ buyer.id then .error ⟨403, "Not your project"⟩
      else
        let request' : ProjectRequest := { request with status := .REJECTED }
        .ok ({ db with
                requests := db.requests.map
                  (fun r => if r.id == request_id then request' else r) },
             request')

/-- `create_task` (`tasks/service.py`): project must exist and be
`ASSIGNED`, caller must be the assigned solver; inserts an
`IN_PROGRESS` task with `created_by = solver.id`. -/
def create_task (db : DB) (solver : User) (project_id : Nat)
    (title description : String) : Except HTTPError (DB × Task) :=
  match db.getProject project_id with
  | none => .error ⟨404, "Project not found"⟩
  | some project =>
    if project.status ≠ .ASSIGNED then
      .error ⟨400, "Project must be in ASSIGNED status"⟩
    else if project.assigned_solver_id ≠ some solver.id then
      .error ⟨403, "You are not assigned to this project"⟩
    else
      let task : Task :=
        { id := db.nextId, project_id := project_id, created_by := solver.id,
          title := title, description := description, status := .IN_PROGRESS }
      .ok ({ db with tasks := db.tasks ++ [task], nextId := db.nextId + 1 },
           task)

/-- `update_task` (`tasks/service.py`): assigned-solver-only, not on
`COMPLETED` tasks, partial metadata update (status is not editable
here).  The source reads `project.assigned_solver_id` without a `None`
check; a missing parent project would surface as a server error (500). -/
def update_task (db : DB) (task_id : Nat) (solver : User)
    (title description : Option String) : Except HTTPError (DB × Task) :=
  match db.getTask task_id with
  | none => .error ⟨404, "Task not found"⟩
  | some task =>
    match db.getProject task.project_id with
    | none => .error ⟨500, "Internal Server Error"⟩
    | some project =>
      if project.assigned_solver_id ≠ some solver.id then
        .error ⟨403, "Not assigned to this project"⟩
      else if task.status = .COMPLETED then
        .error ⟨400, "Cannot update a completed task"⟩
      else
        let task' : Task :=
          { task with
            title := title.getD task.title,
            description := description.getD task.description }
        .ok ({ db with
                tasks := db.tasks.map
                  (fun t => if t.id == task_id then task' else t) },
             task')

/-- `MAX_UPLOAD_SIZE_MB` (`config.py`). -/
def MAX_UPLOAD_SIZE_MB : Nat := 50

/-- The upload handed to `create_submission`: the byte length of
`file_bytes`, the original filename, the MIME type, and the outcome of
the opaque `zipfile.is_zipfile(io.BytesIO(file_bytes))` structural
check. -/
structure UploadFile where
  size : Nat
  filename : String
  content_type : String
  is_zipfile : Bool
deriving DecidableEq

/-- `validate_zip` (`storage/service.py`): the four checks in source
order.  A raised `ValueError` is caught by `create_submission` and
re-raised as `HTTPException(400, str(e))`.  The Python extension check
`filename.lower().endswith(".zip")` is expressed over the character
sequence (`String.data`) — same predicate, kernel-computable form. -/
def validate_zip (f : UploadFile) : Except HTTPError Unit :=
  if ¬ (".zip".data.isSuffixOf (f.filename.data.map Char.toLower)) then
    .error ⟨400, "File must have .zip extension"⟩
  else if f.content_type ≠ "application/zip" then
    .error ⟨400, "File must have application/zip MIME type"⟩
  else if ¬ f.is_zipfile then
    .error ⟨400, "File is not a valid ZIP archive"⟩
  else if f.size > MAX_UPLOAD_SIZE_MB * 1024 * 1024 then
    .error ⟨400, "File exceeds 50MB limit"⟩
  else .ok ()

/-- `create_submission` (`submissions/service.py`) — CASCADE B.  In
source order: load task (404), load project (unchecked access → 500 if
absent), assigned-solver check (403), submittable-state check (400),
`validate_zip` (400), MinIO upload before any DB write (`storage_up =
false` stands for an unreachable/unconfigured Blob Store: `upload_file`
raises `RuntimeError`, surfaced as 500, with no DB mutation), then in
one transaction: `Conflict` (400) if a `PENDING_REVIEW` submission
already exists for the task, insert the `PENDING_REVIEW` submission,
task → `SUBMITTED`. -/
def create_submission (db : DB) (solver : User) (task_id : Nat)
    (f : UploadFile) (notes : Option String) (storage_up : Bool) :
    Except HTTPError (DB × Submission) :=
  match db.getTask task_id with
  | none => .error ⟨404, "Task not found"⟩
  | some task =>
    match db.getProject task.project_id with
    | none => .error ⟨500, "Internal Server Error"⟩
    | some project =>
      if project.assigned_solver_id ≠ some solver.id then
        .error ⟨403, "Not assigned to this project"⟩
      else if ¬ (task.status = .IN_PROGRESS ∨
                 task.status = .REVISION_REQUESTED) then
        .error ⟨400, "Cannot submit when task is " ++ task.status.value ++
                     ". Must be IN_PROGRESS or REVISION_REQUESTED."⟩
      else match validate_zip f with
      | .error e => .error e
      | .ok _ =>
        if ¬ storage_up then
          .error ⟨500, "MinIO is not configured — file uploads are disabled"⟩
        else
          let file_url :=
            "submissions/" ++ toString task.project_id ++ "/" ++
            toString task_id ++ "/" ++ toString db.nextId ++ ".zip"
          if db.submissions.any (fun s => s.task_id == task_id &&
              s.status == SubmissionStatus.PENDING_REVIEW) then
            .error ⟨400, "Task already has a submission pending review"⟩
          else
            let submission : Submission :=
              { id := db.nextId, task_id := task_id, file_url := file_url,
                file_name := f.filename, file_size := f.size, notes := notes,
                status := .PENDING_REVIEW, reviewer_notes := none }
            let tasks' := db.tasks.map (fun t =>
              if t.id == task_id then { t with status := TaskStatus.SUBMITTED }
              else t)
            .ok ({ db with submissions := db.submissions ++ [submission],
                           tasks := tasks', nextId := db.nextId + 1 },
                 submission)

/-- `accept_submission` (`submissions/service.py`) — CASCADE C.  Load
the submission → task → project chain (the task and project loads are
unchecked in the source → 500 if absent), owner check (403),
`PENDING_REVIEW` check (400); then submission → `ACCEPTED`, task →
`COMPLETED`, flush, count the project's tasks whose status is not
`COMPLETED` over the post-flush rows, and set the project `COMPLETED`
exactly when that count is zero. -/
def accept_submission (db : DB) (submission_id : Nat) (buyer : User) :
    Except HTTPError (DB × Submission) :=
  match db.getSubmission submission_id with
  | none => .error ⟨404, "Submission not found"⟩
  | some submission =>
    match db.getTask submission.task_id with
    | none => .error ⟨500, "Internal Server Error"⟩
    | some task =>
      match db.getProject task.project_id with
      | none => .error ⟨500, "Internal Server Error"⟩
      | some project =>
        if project.buyer_id ≠ buyer.id then .error ⟨403, "Not your project"⟩
        else if submission.status ≠ .PENDING_REVIEW then
          .error ⟨400, "Submission is not pending review"⟩
        else
          let submission' : Submission :=
            { submission with status := .ACCEPTED }
          let submissions' := db.submissions.map
            (fun s => if s.id == submission_id then submission' else s)
          let tasks' := db.tasks.map (fun t =>
            if t.id == task.id then { t with status := TaskStatus.COMPLETED }
            else t)
          let incomplete_count := tasks'.countP (fun t =>
            t.project_id == project.id && t.status != TaskStatus.COMPLETED)
          let projects' :=
            if incomplete_count = 0 then
              db.projects.map (fun p =>
                if p.id == project.id then
                  { p with status := ProjectStatus.COMPLETED }
                else p)
            else db.projects
          .ok ({ db with submissions := submissions', tasks := tasks',
                         projects := projects' },
               submission')

/-- `reject_submission` (`submissions/service.py`): same
ownership/state preconditions as `accept_submission`; submission →
`REJECTED` with `reviewer_notes`, task → `REVISION_REQUESTED`, no
further cascade. -/
def reject_submission (db : DB) (submission_id : Nat) (buyer : User)
    (reviewer_notes : String) : Except HTTPError (DB × Submission) :=
  match db.getSubmission submission_id with
  | none => .error ⟨404, "Submission not found"⟩
  | some submission =>
    match db.getTask submission.task_id with
    | none => .error ⟨500, "Internal Server Error"⟩
    | some task =>
      match db.getProject task.project_id with
      | none => .error ⟨500, "Internal Server Error"⟩
      | some project =>
        if project.buyer_id ≠ buyer.id then .error ⟨403, "Not your project"⟩
        else if submission.status ≠ .PENDING_REVIEW then
          .error ⟨400, "Submission is not pending review"⟩
        else
          let submission' : Submission :=
            { submission with status := .REJECTED,
                              reviewer_notes := some reviewer_notes }
          let submissions' := db.submissions.map
            (fun s => if s.id == submission_id then submission' else s)
          let tasks' := db.tasks.map (fun t =>
            if t.id == task.id then
              { t with status := TaskStatus.REVISION_REQUESTED }
            else t)
          .ok ({ db with submissions := submissions', tasks := tasks' },
               submission')

/-- One engine operation (§4.2 of the spec): the state transitions the
Workflow Engine exposes, each firing only when the corresponding
service function succeeds. -/
inductive Step : DB → DB → Prop where
  | createProject (db : DB) (u : User) (t d : String) :
      Step db (create_project db u t d).1
  | updateProject (db db' : DB) (pid : Nat) (u : User) (t d : Option String)
      (x : Project) (h : update_project db pid u t d = .ok (db', x)) :
      Step db db'
  | createRequest (db db' : DB) (u : User) (pid : Nat) (cl : String)
      (x : ProjectRequest) (h : create_request db u pid cl = .ok (db', x)) :
      Step db db'
  | acceptRequest (db db' : DB) (rid : Nat) (u : User) (x : ProjectRequest)
      (h : accept_request db rid u = .ok (db', x)) : Step db db'
  | rejectRequest (db db' : DB) (rid : Nat) (u : User) (x : ProjectRequest)
      (h : reject_request db rid u = .ok (db', x)) : Step db db'
  | createTask (db db' : DB) (u : User) (pid : Nat) (t d : String) (x : Task)
      (h : create_task db u pid t d = .ok (db', x)) : Step db db'
  | updateTask (db db' : DB) (tid : Nat) (u : User) (t d : Option String)
      (x : Task) (h : update_task db tid u t d = .ok (db', x)) : Step db db'
  | createSubmission (db db' : DB) (u : User) (tid : Nat) (f : UploadFile)
      (notes : Option String) (b : Bool) (x : Submission)
      (h : create_submission db u tid f notes b = .ok (db', x)) : Step db db'
  | acceptSubmission (db db' : DB) (sid : Nat) (u : User) (x : Submission)
      (h : accept_submission db sid u = .ok (db', x)) : Step db db'
  | rejectSubmission (db db' : DB) (sid : Nat) (u : User) (n : String)
      (x : Submission) (h : reject_submission db sid u n = .ok (db', x)) :
      Step db db'

/-- States reachable from a fresh store through engine operations. -/
inductive Reachable : DB → Prop where
  | init : Reachable DB.empty
  | step {db db' : DB} : Reachable db → Step db db' → Reachable db'

/-- Number of `ACCEPTED` requests recorded for project `pid`. -/
def countAccepted (db : DB) (pid : Nat) : Nat :=
  db.requests.countP
    (fun r => r.project_id == pid && r.status == RequestStatus.ACCEPTED)

/-- Number of `PENDING_REVIEW` submissions recorded for task `tid`. -/
def countPendingReview (db : DB) (tid : Nat) : Nat :=
  db.submissions.countP
    (fun s => s.task_id == tid && s.status == SubmissionStatus.PENDING_REVIEW)

/-- Number of submission rows recorded for task `tid`. -/
def countSubmissionsFor (db : DB) (tid : Nat) : Nat :=
  db.submissions.countP (fun s => s.task_id == tid)

/-! ### Error taxonomy (spec section 7) and storage-layer constraints -/

/-- The error taxonomy of the spec. -/
inductive ErrorKind where
  | NotFound
  | Forbidden
  | InvalidState
  | Conflict
  | ValidationError
  | StorageError
  | Unauthenticated
deriving DecidableEq

/-- The caller-facing HTTP status each error kind is raised with in the
source: `NotFound` → 404, `Forbidden` → 403 (ownership checks),
`InvalidState` → 400 (wrong lifecycle state), `Conflict` → 400
(duplicate bid in `create_request`, duplicate pending submission in
`create_submission`), `ValidationError` → 400 (`validate_zip` failures
re-raised as `HTTPException(400, str(e))`), `StorageError` → 500 (the
`RuntimeError`/S3 error from `upload_file` propagates uncaught and
FastAPI surfaces it as an internal server error), `Unauthenticated` →
401 (`dependencies.py`). -/
def errorStatus : ErrorKind → Nat
  | .NotFound => 404
  | .Forbidden => 403
  | .InvalidState => 400
  | .Conflict => 400
  | .ValidationError => 400
  | .StorageError => 500
  | .Unauthenticated => 401

/-- Uniqueness constraints declared at the storage layer on the
`project_requests` table (`models/request.py`, `__table_args__`):
exactly one, `uq_request_project_solver` over
`(project_id, solver_id)`. -/
def projectRequestTableUniqueConstraints : List (String × List String) :=
  [("uq_request_project_solver", ["project_id", "solver_id"])]

/-- Uniqueness constraints declared at the storage layer on the
`submissions` table (`models/submission.py`): the model declares no
`__table_args__` at all, so this list is empty — in particular there is
no partial unique index or constraint enforcing "at most one
`PENDING_REVIEW` per task". -/
def submissionTableUniqueConstraints : List (String × List String) := []

/-! ### A concrete workflow run (the literal scenario of spec section 8) -/

/-- Extracts the successor store of a successful operation (scenario
plumbing only; falls back to the given store on error). -/
def afterOk {e : Type} (r : Except e (DB × α)) (fallback : DB) : DB :=
  match r with
  | .ok (db, _) => db
  | .error _ => fallback

/-- The buyer of the running scenario. -/
def buyer0 : User := ⟨100, .BUYER⟩

/-- Solver A of the running scenario. -/
def solverA : User := ⟨101, .SOLVER⟩

/-- Solver B of the running scenario. -/
def solverB : User := ⟨102, .SOLVER⟩

/-- A third solver, used for failure cases. -/
def solverC : User := ⟨103, .SOLVER⟩

/-- A valid ZIP upload (passes all four `validate_zip` checks). -/
def zipFile : UploadFile := ⟨4, "work.zip", "application/zip", true⟩

/-- An upload that fails the extension check of `validate_zip`. -/
def badFile : UploadFile := ⟨4, "work.pdf", "application/pdf", false⟩

/-- Buyer creates project 0 (OPEN). -/
def wdb1 : DB := (create_project DB.empty buyer0 "Site" "Build a site").1

/-- Solver A bids: request 1 (PENDING) on project 0. -/
def wdb2 : DB := afterOk (create_request wdb1 solverA 0 "I can do it") DB.empty

/-- Solver B bids: request 2 (PENDING) on project 0. -/
def wdb3 : DB := afterOk (create_request wdb2 solverB 0 "Me too") DB.empty

/-- Buyer accepts request 1: request 2 REJECTED, project 0 ASSIGNED to
solver A. -/
def wdb4 : DB := afterOk (accept_request wdb3 1 buyer0) DB.empty

/-- Solver A creates task 3 (IN_PROGRESS) on project 0. -/
def wdb5 : DB := afterOk (create_task wdb4 solverA 0 "Task" "Do work") DB.empty

/-- Solver A uploads submission 4 (PENDING_REVIEW); task 3 SUBMITTED. -/
def wdb6 : DB :=
  afterOk (create_submission wdb5 solverA 3 zipFile none true) DB.empty

/-- Buyer rejects submission 4 ("missing tests"): task 3
REVISION_REQUESTED. -/
def wdb7 : DB :=
  afterOk (reject_submission wdb6 4 buyer0 "missing tests") DB.empty

/-- Solver A re-uploads: submission 5 (PENDING_REVIEW); task 3
SUBMITTED again. -/
def wdb8 : DB :=
  afterOk (create_submission wdb7 solverA 3 zipFile none true) DB.empty

/-- Buyer accepts submission 5: task 3 COMPLETED, project 0 COMPLETED. -/
def wdb9 : DB := afterOk (accept_submission wdb8 5 buyer0) DB.empty

/-- Starting from `wdb8` instead: rejecting the pending resubmission and
uploading a third one (used to count submission rows). -/
def c9db2 : DB := afterOk (reject_submission wdb8 5 buyer0 "rework") DB.empty

/-- Third upload after the second rejection: submission 6. -/
def c9db3 : DB :=
  afterOk (create_submission c9db2 solverA 3 zipFile none true) DB.empty

/-- Project 0 as stored in `wdb1` (just created, `OPEN`, unassigned). -/
def wproj1 : Project := ⟨0, "Site", "Build a site", .OPEN, 100, none⟩

/-- Solver A's request as stored in `wdb2`/`wdb3` (`PENDING`). -/
def wreqA : ProjectRequest := ⟨1, 0, 101, "I can do it", .PENDING⟩

/-- Task 3 as stored in `wdb5` (just created, `IN_PROGRESS`). -/
def wtask3 : Task := ⟨3, 0, 101, "Task", "Do work", .IN_PROGRESS⟩

/-- Task 3 as stored in `wdb8` (`SUBMITTED`). -/
def wtask3s : Task := ⟨3, 0, 101, "Task", "Do work", .SUBMITTED⟩

/-- Submission 5 as stored in `wdb8` (`PENDING_REVIEW`). -/
def wsub5 : Submission :=
  ⟨5, 3, "submissions/0/3/5.zip", "work.zip", 4, none, .PENDING_REVIEW, none⟩

/-- Project 0 as stored in `wdb4` (`ASSIGNED` to solver A). -/
def wproj4 : Project := ⟨0, "Site", "Build a site", .ASSIGNED, 100, some 101⟩

/-! ### Generic list lemmas -/

/-- `find?` commutes with a map that does not disturb the predicate. -/
theorem find?_map_comm {α : Type} (f : α → α) (p : α → Bool) (l : List α)
    (hf : ∀ a, p (f a) = p a) :
    (l.map f).find? p = (l.find? p).map f := by
  induction l with
  | nil => rfl
  | cons a l ih =>
    by_cases h : p a = true
    · rw [List.map_cons, List.find?_cons_of_pos _ ((hf a).trans h),
          List.find?_cons_of_pos _ h, Option.map_some']
    · rw [List.map_cons,
          List.find?_cons_of_neg _ (by rw [hf]; simpa using h),
          List.find?_cons_of_neg _ (by simpa using h), ih]

/-- Two members of a key-pairwise-distinct list with equal keys are the
same element. -/
theorem eq_of_key_pairwise {α : Type} (key : α → Nat) {l : List α}
    (hp : l.Pairwise fun a b => key a ≠ key b) {a b : α}
    (ha : a ∈ l) (hb : b ∈ l) (hk : key a = key b) : a = b := by
  induction l with
  | nil => cases ha
  | cons x l ih =>
    have hx := (List.pairwise_cons.mp hp).1
    have hl := (List.pairwise_cons.mp hp).2
    cases List.mem_cons.mp ha with
    | inl h1 =>
      cases List.mem_cons.mp hb with
      | inl h2 => rw [h1, h2]
      | inr h2 => exact absurd (h1 ▸ hk) (hx b h2)
    | inr h1 =>
      cases List.mem_cons.mp hb with
      | inl h2 => exact absurd (h2 ▸ hk).symm (hx a h1)
      | inr h2 => exact ih hl h1 h2

/-- In a key-pairwise-distinct list at most one element carries key `k`. -/
theorem countP_key_le_one {α : Type} (key : α → Nat) (k : Nat) {l : List α}
    (hp : l.Pairwise fun a b => key a ≠ key b) :
    l.countP (fun a => key a == k) ≤ 1 := by
  induction l with
  | nil => simp
  | cons x l ih =>
    have hx := (List.pairwise_cons.mp hp).1
    have hl := (List.pairwise_cons.mp hp).2
    rw [List.countP_cons]
    by_cases h : key x = k
    · have h0 : l.countP (fun a => key a == k) = 0 := by
        rw [List.countP_eq_zero]
        intro a ha
        simp only [beq_iff_eq]
        intro hak
        exact hx a ha (by rw [h, hak])
      simp [h0, h]
    · simp only [beq_iff_eq, h, if_false]
      simpa using ih hl

/-- `find?` skips a prefix on which the predicate is everywhere false. -/
theorem find?_append_none {α : Type} (l1 l2 : List α) (p : α → Bool)
    (h : ∀ a ∈ l1, p a = false) : (l1 ++ l2).find? p = l2.find? p := by
  induction l1 with
  | nil => rfl
  | cons a l1 ih =>
    rw [List.cons_append,
      List.find?_cons_of_neg _ (by simp [h a (List.mem_cons_self a l1)]),
      ih (fun a ha => h a (List.mem_cons_of_mem _ ha))]

/-- `find?` returns a hit in the first part of an append. -/
theorem find?_append_first {α : Type} {l1 : List α} (l2 : List α)
    {p : α → Bool} {a : α} (h : l1.find? p = some a) :
    (l1 ++ l2).find? p = some a := by
  induction l1 with
  | nil => exact absurd h (by simp)
  | cons x l1 ih =>
    by_cases hx : p x = true
    · rw [List.find?_cons_of_pos _ hx] at h
      rw [List.cons_append, List.find?_cons_of_pos _ hx]
      exact h
    · rw [List.find?_cons_of_neg _ (by simpa using hx)] at h
      rw [List.cons_append,
        List.find?_cons_of_neg _ (by simpa using hx)]
      exact ih h

/-! ### Inversion lemmas: what a successful operation did -/

/-- Inversion for `update_project`: preconditions held and only the two
metadata fields of the addressed project changed. -/
theorem update_project_ok {db db' : DB} {pid : Nat} {u : User}
    {t d : Option String} {x : Project}
    (h : update_project db pid u t d = .ok (db', x)) :
    ∃ project, db.getProject pid = some project ∧
      project.buyer_id = u.id ∧ project.status = .OPEN ∧
      x = { project with title := t.getD project.title,
                         description := d.getD project.description } ∧
      db' = { db with projects :=
                db.projects.map (fun p => if p.id == pid then x else p) } := by
  unfold update_project at h
  split at h
  · exact Except.noConfusion h
  next project hp =>
    split at h
    · exact Except.noConfusion h
    next h1 =>
      split at h
      · exact Except.noConfusion h
      next h2 =>
        injection h with h3
        injection h3 with hdb hx
        subst hdb; subst hx
        exact ⟨project, hp, not_ne_iff.mp h1, not_ne_iff.mp h2, rfl, rfl⟩

/-- Inversion for `create_request`: the project existed and was `OPEN`,
no duplicate `(project_id, solver_id)` row existed, and exactly one
`PENDING` request was appended. -/
theorem create_request_ok {db db' : DB} {u : User} {pid : Nat} {cl : String}
    {x : ProjectRequest} (h : create_request db u pid cl = .ok (db', x)) :
    ∃ project, db.getProject pid = some project ∧ project.status = .OPEN ∧
      (∀ r ∈ db.requests, ¬(r.project_id = pid ∧ r.solver_id = u.id)) ∧
      x = { id := db.nextId, project_id := pid, solver_id := u.id,
            cover_letter := cl, status := .PENDING } ∧
      db' = { db with requests := db.requests ++ [x],
                      nextId := db.nextId + 1 } := by
  unfold create_request at h
  split at h
  · exact Except.noConfusion h
  next project hp =>
    split at h
    · exact Except.noConfusion h
    next h1 =>
      split at h
      · exact Except.noConfusion h
      next h2 =>
        injection h with h3
        injection h3 with hdb hx
        subst hdb; subst hx
        refine ⟨project, hp, not_ne_iff.mp h1, ?_, rfl, rfl⟩
        intro r hr hcontra
        exact h2 (List.any_eq_true.mpr
          ⟨r, hr, by simp [hcontra.1, hcontra.2]⟩)

/-- Inversion for `accept_request`: all five preconditions held and the
four cascade writes are exactly those of CASCADE A. -/
theorem accept_request_ok {db db' : DB} {rid : Nat} {u : User}
    {x : ProjectRequest} (h : accept_request db rid u = .ok (db', x)) :
    ∃ request project,
      db.getRequest rid = some request ∧ request.status = .PENDING ∧
      db.getProject request.project_id = some project ∧
      project.buyer_id = u.id ∧ project.status = .OPEN ∧
      x = { request with status := .ACCEPTED } ∧
      db' = { db with
        requests := db.requests.map (fun r =>
          if r.id == rid then { r with status := RequestStatus.ACCEPTED }
          else if r.project_id == request.project_id && r.id != rid
              && r.status == RequestStatus.PENDING then
            { r with status := RequestStatus.REJECTED }
          else r),
        projects := db.projects.map (fun p =>
          if p.id == request.project_id then
            { p with assigned_solver_id := some request.solver_id,
                     status := ProjectStatus.ASSIGNED }
          else p) } := by
  unfold accept_request at h
  split at h
  · exact Except.noConfusion h
  next request hreq =>
    split at h
    · exact Except.noConfusion h
    next h1 =>
      split at h
      · exact Except.noConfusion h
      next project hp =>
        split at h
        · exact Except.noConfusion h
        next h2 =>
          split at h
          · exact Except.noConfusion h
          next h3 =>
            injection h with h4
            injection h4 with hdb hx
            subst hdb; subst hx
            exact ⟨request, project, hreq, not_ne_iff.mp h1, hp,
              not_ne_iff.mp h2, not_ne_iff.mp h3, rfl, rfl⟩

/-- Inversion for `reject_request`: preconditions held and only the
addressed request's status changed, to `REJECTED`. -/
theorem reject_request_ok {db db' : DB} {rid : Nat} {u : User}
    {x : ProjectRequest} (h : reject_request db rid u = .ok (db', x)) :
    ∃ request project,
      db.getRequest rid = some request ∧ request.status = .PENDING ∧
      db.getProject request.project_id = some project ∧
      project.buyer_id = u.id ∧
      x = { request with status := .REJECTED } ∧
      db' = { db with requests :=
                db.requests.map (fun r => if r.id == rid then x else r) } := by
  unfold reject_request at h
  split at h
  · exact Except.noConfusion h
  next request hreq =>
    split at h
    · exact Except.noConfusion h
    next h1 =>
      split at h
      · exact Except.noConfusion h
      next project hp =>
        split at h
        · exact Except.noConfusion h
        next h2 =>
          injection h with h3
          injection h3 with hdb hx
          subst hdb; subst hx
          exact ⟨request, project, hreq, not_ne_iff.mp h1, hp,
            not_ne_iff.mp h2, rfl, rfl⟩

/-- Inversion for `create_task`: the project existed, was `ASSIGNED`,
the caller was the assigned solver, and one `IN_PROGRESS` task was
appended. -/
theorem create_task_ok {db db' : DB} {u : User} {pid : Nat} {t d : String}
    {x : Task} (h : create_task db u pid t d = .ok (db', x)) :
    ∃ project, db.getProject pid = some project ∧
      project.status = .ASSIGNED ∧
      project.assigned_solver_id = some u.id ∧
      x = { id := db.nextId, project_id := pid, created_by := u.id,
            title := t, description := d, status := .IN_PROGRESS } ∧
      db' = { db with tasks := db.tasks ++ [x],
                      nextId := db.nextId + 1 } := by
  unfold create_task at h
  split at h
  · exact Except.noConfusion h
  next project hp =>
    split at h
    · exact Except.noConfusion h
    next h1 =>
      split at h
      · exact Except.noConfusion h
      next h2 =>
        injection h with h3
        injection h3 with hdb hx
        subst hdb; subst hx
        exact ⟨project, hp, not_ne_iff.mp h1, not_ne_iff.mp h2, rfl, rfl⟩

/-- Inversion for `update_task`: preconditions held and only the two
metadata fields of the addressed task changed (status untouched). -/
theorem update_task_ok {db db' : DB} {tid : Nat} {u : User}
    {t d : Option String} {x : Task}
    (h : update_task db tid u t d = .ok (db', x)) :
    ∃ task project, db.getTask tid = some task ∧
      db.getProject task.project_id = some project ∧
      project.assigned_solver_id = some u.id ∧
      task.status ≠ .COMPLETED ∧
      x = { task with title := t.getD task.title,
                      description := d.getD task.description } ∧
      db' = { db with tasks :=
                db.tasks.map (fun t0 => if t0.id == tid then x else t0) } := by
  unfold update_task at h
  split at h
  · exact Except.noConfusion h
  next task htask =>
    split at h
    · exact Except.noConfusion h
    next project hp =>
      split at h
      · exact Except.noConfusion h
      next h1 =>
        split at h
        · exact Except.noConfusion h
        next h2 =>
          injection h with h3
          injection h3 with hdb hx
          subst hdb; subst hx
          exact ⟨task, project, htask, hp, not_ne_iff.mp h1, h2, rfl, rfl⟩

/-- Inversion for `create_submission`: the whole precondition chain
held (including the absence of a `PENDING_REVIEW` sibling), one
`PENDING_REVIEW` submission was appended, and the task moved to
`SUBMITTED`. -/
theorem create_submission_ok {db db' : DB} {u : User} {tid : Nat}
    {f : UploadFile} {notes : Option String} {b : Bool} {x : Submission}
    (h : create_submission db u tid f notes b = .ok (db', x)) :
    ∃ task project, db.getTask tid = some task ∧
      db.getProject task.project_id = some project ∧
      project.assigned_solver_id = some u.id ∧
      (task.status = .IN_PROGRESS ∨ task.status = .REVISION_REQUESTED) ∧
      validate_zip f = .ok () ∧ b = true ∧
      (∀ s ∈ db.submissions,
        ¬(s.task_id = tid ∧ s.status = SubmissionStatus.PENDING_REVIEW)) ∧
      x = { id := db.nextId, task_id := tid,
            file_url := "submissions/" ++ toString task.project_id ++ "/" ++
              toString tid ++ "/" ++ toString db.nextId ++ ".zip",
            file_name := f.filename, file_size := f.size, notes := notes,
            status := .PENDING_REVIEW, reviewer_notes := none } ∧
      db' = { db with
        submissions := db.submissions ++ [x],
        tasks := db.tasks.map (fun t =>
          if t.id == tid then { t with status := TaskStatus.SUBMITTED }
          else t),
        nextId := db.nextId + 1 } := by
  unfold create_submission at h
  split at h
  · exact Except.noConfusion h
  next task htask =>
    split at h
    · exact Except.noConfusion h
    next project hp =>
      split at h
      · exact Except.noConfusion h
      next h1 =>
        split at h
        · exact Except.noConfusion h
        next h2 =>
          split at h
          · exact Except.noConfusion h
          next hz =>
            split at h
            · exact Except.noConfusion h
            next h3 =>
              split at h
              · exact Except.noConfusion h
              next h4 =>
                injection h with h5
                injection h5 with hdb hx
                subst hdb; subst hx
                refine ⟨task, project, htask, hp, not_ne_iff.mp h1,
                  not_not.mp h2, hz, not_not.mp (by simpa using h3),
                  ?_, rfl, rfl⟩
                intro s hs hcontra
                exact h4 (List.any_eq_true.mpr
                  ⟨s, hs, by simp [hcontra.1, hcontra.2]⟩)

/-- Inversion for `accept_submission`: the precondition chain held,
the submission moved to `ACCEPTED`, its task to `COMPLETED`, and the
project moved to `COMPLETED` exactly when the count of not-`COMPLETED`
tasks of the project — taken over the post-flush task rows — is zero. -/
theorem accept_submission_ok {db db' : DB} {sid : Nat} {u : User}
    {x : Submission} (h : accept_submission db sid u = .ok (db', x)) :
    ∃ submission task project,
      db.getSubmission sid = some submission ∧
      db.getTask submission.task_id = some task ∧
      db.getProject task.project_id = some project ∧
      project.buyer_id = u.id ∧
      submission.status = .PENDING_REVIEW ∧
      x = { submission with status := .ACCEPTED } ∧
      db' = { db with
        submissions := db.submissions.map
          (fun s => if s.id == sid then x else s),
        tasks := db.tasks.map (fun t =>
          if t.id == task.id then { t with status := TaskStatus.COMPLETED }
          else t),
        projects :=
          if (db.tasks.map (fun t =>
                if t.id == task.id then
                  { t with status := TaskStatus.COMPLETED }
                else t)).countP (fun t => t.project_id == project.id &&
                  t.status != TaskStatus.COMPLETED) = 0 then
            db.projects.map (fun p =>
              if p.id == project.id then
                { p with status := ProjectStatus.COMPLETED }
              else p)
          else db.projects } := by
  unfold accept_submission at h
  split at h
  · exact Except.noConfusion h
  next submission hsub =>
    split at h
    · exact Except.noConfusion h
    next task htask =>
      split at h
      · exact Except.noConfusion h
      next project hp =>
        split at h
        · exact Except.noConfusion h
        next h1 =>
          split at h
          · exact Except.noConfusion h
          next h2 =>
            injection h with h3
            injection h3 with hdb hx
            subst hdb; subst hx
            exact ⟨submission, task, project, hsub, htask, hp,
              not_ne_iff.mp h1, not_ne_iff.mp h2, rfl, rfl⟩

/-- Inversion for `reject_submission`: the precondition chain held, the
submission moved to `REJECTED` carrying the reviewer notes, and its
task moved to `REVISION_REQUESTED`; projects untouched. -/
theorem reject_submission_ok {db db' : DB} {sid : Nat} {u : User}
    {n : String} {x : Submission}
    (h : reject_submission db sid u n = .ok (db', x)) :
    ∃ submission task project,
      db.getSubmission sid = some submission ∧
      db.getTask submission.task_id = some task ∧
      db.getProject task.project_id = some project ∧
      project.buyer_id = u.id ∧
      submission.status = .PENDING_REVIEW ∧
      x = { submission with status := .REJECTED,
                            reviewer_notes := some n } ∧
      db' = { db with
        submissions := db.submissions.map
          (fun s => if s.id == sid then x else s),
        tasks := db.tasks.map (fun t =>
          if t.id == task.id then
            { t with status := TaskStatus.REVISION_REQUESTED }
          else t) } := by
  unfold reject_submission at h
  split at h
  · exact Except.noConfusion h
  next submission hsub =>
    split at h
    · exact Except.noConfusion h
    next task htask =>
      split at h
      · exact Except.noConfusion h
      next project hp =>
        split at h
        · exact Except.noConfusion h
        next h1 =>
          split at h
          · exact Except.noConfusion h
          next h2 =>
            injection h with h3
            injection h3 with hdb hx
            subst hdb; subst hx
            exact ⟨submission, task, project, hsub, htask, hp,
              not_ne_iff.mp h1, not_ne_iff.mp h2, rfl, rfl⟩

/-! ### The inductive invariant of reachable stores -/

/-- A three-valued project status is not `OPEN` exactly when it is
`ASSIGNED` or `COMPLETED`. -/
theorem ProjectStatus.ne_open_iff (s : ProjectStatus) :
    s ≠ .OPEN ↔ (s = .ASSIGNED ∨ s = .COMPLETED) := by
  cases s <;> simp

/-- A successful `session.get(Project, pid)` returns a stored row whose
id is `pid`. -/
theorem getProject_mem {db : DB} {pid : Nat} {p : Project}
    (h : db.getProject pid = some p) : p ∈ db.projects ∧ p.id = pid :=
  ⟨List.mem_of_find?_eq_some h, by simpa using List.find?_some h⟩

/-- A successful `session.get(ProjectRequest, rid)` returns a stored
row whose id is `rid`. -/
theorem getRequest_mem {db : DB} {rid : Nat} {r : ProjectRequest}
    (h : db.getRequest rid = some r) : r ∈ db.requests ∧ r.id = rid :=
  ⟨List.mem_of_find?_eq_some h, by simpa using List.find?_some h⟩

/-- A successful `session.get(Task, tid)` returns a stored row whose id
is `tid`. -/
theorem getTask_mem {db : DB} {tid : Nat} {t : Task}
    (h : db.getTask tid = some t) : t ∈ db.tasks ∧ t.id = tid :=
  ⟨List.mem_of_find?_eq_some h, by simpa using List.find?_some h⟩

/-- A successful `session.get(Submission, sid)` returns a stored row
whose id is `sid`. -/
theorem getSubmission_mem {db : DB} {sid : Nat} {s : Submission}
    (h : db.getSubmission sid = some s) : s ∈ db.submissions ∧ s.id = sid :=
  ⟨List.mem_of_find?_eq_some h, by simpa using List.find?_some h⟩

/-- The inductive invariant maintained by every engine operation.
Beyond the spec-level properties (the `assigned_solver_id` biconditional,
at most one `ACCEPTED` request per project and none while it is `OPEN`,
at most one `PENDING_REVIEW` submission per task, a `COMPLETED` project
has a task) it carries the bookkeeping facts that make the induction go
through: stored ids are pairwise distinct and below the freshness
counter, request rows point below the counter, every task points at a
stored non-`OPEN` project, and every submission points at a stored
task. -/
structure Inv (db : DB) : Prop where
  projIds : db.projects.Pairwise (fun a b => a.id ≠ b.id)
  reqIds : db.requests.Pairwise (fun a b => a.id ≠ b.id)
  taskIds : db.tasks.Pairwise (fun a b => a.id ≠ b.id)
  subIds : db.submissions.Pairwise (fun a b => a.id ≠ b.id)
  projBound : ∀ p ∈ db.projects, p.id < db.nextId
  reqBound : ∀ r ∈ db.requests, r.id < db.nextId
  taskBound : ∀ t ∈ db.tasks, t.id < db.nextId
  subBound : ∀ s ∈ db.submissions, s.id < db.nextId
  reqProjBound : ∀ r ∈ db.requests, r.project_id < db.nextId
  solverIff : ∀ p ∈ db.projects, p.assigned_solver_id ≠ none ↔
    (p.status = .ASSIGNED ∨ p.status = .COMPLETED)
  taskProj : ∀ t ∈ db.tasks,
    ∃ p ∈ db.projects, p.id = t.project_id ∧ p.status ≠ .OPEN
  subTask : ∀ s ∈ db.submissions, ∃ t ∈ db.tasks, t.id = s.task_id
  acceptedZero : ∀ p ∈ db.projects, p.status = .OPEN →
    countAccepted db p.id = 0
  acceptedLeOne : ∀ pid, countAccepted db pid ≤ 1
  pendingLeOne : ∀ tid, countPendingReview db tid ≤ 1
  completedHasTask : ∀ p ∈ db.projects, p.status = .COMPLETED →
    ∃ t ∈ db.tasks, t.project_id = p.id

/-- The fresh store satisfies the invariant. -/
theorem inv_empty : Inv DB.empty := by
  constructor <;> simp [DB.empty, countAccepted, countPendingReview]

/-- Key-distinctness survives a map that preserves the key. -/
theorem pairwise_key_map {α : Type} (key : α → Nat) (f : α → α) {l : List α}
    (hf : ∀ a, key (f a) = key a)
    (hp : l.Pairwise fun a b => key a ≠ key b) :
    (l.map f).Pairwise (fun a b => key a ≠ key b) := by
  rw [List.pairwise_map]
  exact hp.imp (fun h => by rw [hf, hf]; exact h)

/-- Key-distinctness survives appending an element with a new key. -/
theorem pairwise_key_append {α : Type} (key : α → Nat) {l : List α} {x : α}
    (hp : l.Pairwise fun a b => key a ≠ key b)
    (hx : ∀ a ∈ l, key a ≠ key x) :
    (l ++ [x]).Pairwise (fun a b => key a ≠ key b) := by
  rw [List.pairwise_append]
  refine ⟨hp, List.pairwise_singleton _ _, fun a ha b hb => ?_⟩
  rw [List.mem_singleton.mp hb]
  exact hx a ha

/-- `countP` is unchanged by a map that preserves the predicate on
every member. -/
theorem countP_map_congr {α : Type} (f : α → α) (p q : α → Bool) :
    ∀ (l : List α), (∀ a ∈ l, p (f a) = q a) →
    (l.map f).countP p = l.countP q := by
  intro l
  induction l with
  | nil => intro _; rfl
  | cons a l ih =>
    intro hf
    rw [List.map_cons, List.countP_cons, List.countP_cons,
      hf a (List.mem_cons_self a l),
      ih (fun a ha => hf a (List.mem_cons_of_mem _ ha))]

/-- `countP` does not grow under a map that never turns the predicate
on. -/
theorem countP_map_le {α : Type} (f : α → α) (p : α → Bool) :
    ∀ (l : List α), (∀ a ∈ l, p (f a) = true → p a = true) →
    (l.map f).countP p ≤ l.countP p := by
  intro l
  induction l with
  | nil => intro _; exact Nat.le_refl _
  | cons a l ih =>
    intro hf
    rw [List.map_cons, List.countP_cons, List.countP_cons]
    have h1 := ih (fun a ha => hf a (List.mem_cons_of_mem _ ha))
    by_cases h : p (f a) = true
    · rw [if_pos h, if_pos (hf a (List.mem_cons_self a l) h)]
      omega
    · rw [if_neg h]
      by_cases h2 : p a = true
      · rw [if_pos h2]; omega
      · rw [if_neg h2]; omega

/-- `create_project` preserves the invariant. -/
theorem inv_create_project {db : DB} {u : User} {t d : String}
    (hInv : Inv db) : Inv (create_project db u t d).1 := by
  obtain ⟨h1, h2, h3, h4, h5, h6, h7, h8, h9, h10, h11, h12, h13, h14,
    h15, h16⟩ := hInv
  unfold create_project
  refine ⟨?_, h2, h3, h4, ?_, ?_, ?_, ?_, ?_, ?_, ?_, h12, ?_, ?_, h15, ?_⟩
  · exact pairwise_key_append _ h1 (fun a ha => Nat.ne_of_lt (h5 a ha))
  · intro p hp
    rcases List.mem_append.mp hp with hp | hp
    · exact Nat.lt_succ_of_lt (h5 p hp)
    · rw [List.mem_singleton.mp hp]; exact Nat.lt_succ_self _
  · exact fun r hr => Nat.lt_succ_of_lt (h6 r hr)
  · exact fun a ha => Nat.lt_succ_of_lt (h7 a ha)
  · exact fun s hs => Nat.lt_succ_of_lt (h8 s hs)
  · exact fun r hr => Nat.lt_succ_of_lt (h9 r hr)
  · intro p hp
    rcases List.mem_append.mp hp with hp | hp
    · exact h10 p hp
    · rw [List.mem_singleton.mp hp]; simp
  · intro t0 ht0
    obtain ⟨p, hp, hid, hst⟩ := h11 t0 ht0
    exact ⟨p, List.mem_append_left _ hp, hid, hst⟩
  · intro p hp hopen
    rcases List.mem_append.mp hp with hp | hp
    · exact h13 p hp hopen
    · rw [List.mem_singleton.mp hp]
      unfold countAccepted
      rw [List.countP_eq_zero]
      intro r hr
      have := h9 r hr
      simp only [Bool.and_eq_true, beq_iff_eq]
      rintro ⟨hpid, -⟩
      simp only [hpid] at this
      omega
  · intro pid
    exact h14 pid
  · intro p hp hc
    rcases List.mem_append.mp hp with hp | hp
    · exact h16 p hp hc
    · rw [List.mem_singleton.mp hp] at hc
      exact absurd hc (by simp)

/-- `update_project` preserves the invariant. -/
theorem inv_update_project {db db' : DB} {pid : Nat} {u : User}
    {t d : Option String} {x : Project} (hInv : Inv db)
    (h : update_project db pid u t d = .ok (db', x)) : Inv db' := by
  obtain ⟨project, hp, hbuy, hopen, hx, hdb⟩ := update_project_ok h
  obtain ⟨hprojmem, hprojid⟩ := getProject_mem hp
  obtain ⟨h1, h2, h3, h4, h5, h6, h7, h8, h9, h10, h11, h12, h13, h14,
    h15, h16⟩ := hInv
  subst hdb
  have hgid : ∀ a : Project,
      ((if a.id == pid then x else a) : Project).id = a.id := by
    intro a; split
    · next hc =>
      rw [hx]
      show project.id = a.id
      rw [hprojid]
      exact (by simpa using hc : a.id = pid).symm
    · rfl
  have hgmem : ∀ a ∈ db.projects,
      ((if a.id == pid then x else a) : Project).status = a.status ∧
      ((if a.id == pid then x else a) : Project).assigned_solver_id
        = a.assigned_solver_id := by
    intro a ha
    split
    · next hc =>
      have : a = project := eq_of_key_pairwise (fun p : Project => p.id) h1 ha hprojmem
        (by show a.id = project.id; rw [hprojid]; simpa using hc)
      rw [this, hx]
      exact ⟨rfl, rfl⟩
    · exact ⟨rfl, rfl⟩
  refine ⟨?_, h2, h3, h4, ?_, h6, h7, h8, h9, ?_, ?_, h12, ?_, h14, h15, ?_⟩
  · exact pairwise_key_map (fun p : Project => p.id) _ hgid h1
  · intro p hmem
    obtain ⟨a, ha, rfl⟩ := List.mem_map.mp hmem
    rw [hgid]
    exact h5 a ha
  · intro p hmem
    obtain ⟨a, ha, rfl⟩ := List.mem_map.mp hmem
    rw [(hgmem a ha).1, (hgmem a ha).2]
    exact h10 a ha
  · intro t0 ht0
    obtain ⟨p, hpm, hid, hst⟩ := h11 t0 ht0
    refine ⟨(if (p.id == pid) = true then x else p),
      List.mem_map.mpr ⟨p, hpm, rfl⟩, ?_, ?_⟩
    · rw [hgid]; exact hid
    · rw [(hgmem p hpm).1]; exact hst
  · intro p hmem hpopen
    obtain ⟨a, ha, rfl⟩ := List.mem_map.mp hmem
    rw [(hgmem a ha).1] at hpopen
    have h0 := h13 a ha hpopen
    unfold countAccepted at h0 ⊢
    rw [hgid a]
    exact h0
  · intro p hmem hc
    obtain ⟨a, ha, rfl⟩ := List.mem_map.mp hmem
    rw [(hgmem a ha).1] at hc
    obtain ⟨t0, ht0, hpid0⟩ := h16 a ha hc
    exact ⟨t0, ht0, by rw [hgid a]; exact hpid0⟩

/-- `create_request` preserves the invariant. -/
theorem inv_create_request {db db' : DB} {u : User} {pid : Nat} {cl : String}
    {x : ProjectRequest} (hInv : Inv db)
    (h : create_request db u pid cl = .ok (db', x)) : Inv db' := by
  obtain ⟨project, hp, hopen, hnodup, hx, hdb⟩ := create_request_ok h
  obtain ⟨hprojmem, hprojid⟩ := getProject_mem hp
  obtain ⟨h1, h2, h3, h4, h5, h6, h7, h8, h9, h10, h11, h12, h13, h14,
    h15, h16⟩ := hInv
  subst hdb
  have hcount : ∀ q : Nat, countAccepted
      { db with requests := db.requests ++ [x], nextId := db.nextId + 1 } q
      = countAccepted db q := by
    intro q
    unfold countAccepted
    rw [List.countP_append, List.countP_cons, List.countP_nil]
    rw [hx]
    simp
  refine ⟨h1, ?_, h3, h4, ?_, ?_, ?_, ?_, ?_, h10, h11, h12, ?_, ?_, h15, h16⟩
  · refine pairwise_key_append (fun r : ProjectRequest => r.id) h2 (fun a ha => ?_)
    rw [hx]
    exact Nat.ne_of_lt (h6 a ha)
  · exact fun p hmem => Nat.lt_succ_of_lt (h5 p hmem)
  · intro r hr
    rcases List.mem_append.mp hr with hr | hr
    · exact Nat.lt_succ_of_lt (h6 r hr)
    · rw [List.mem_singleton.mp hr, hx]; exact Nat.lt_succ_self _
  · exact fun a ha => Nat.lt_succ_of_lt (h7 a ha)
  · exact fun s hs => Nat.lt_succ_of_lt (h8 s hs)
  · intro r hr
    rcases List.mem_append.mp hr with hr | hr
    · exact Nat.lt_succ_of_lt (h9 r hr)
    · rw [List.mem_singleton.mp hr, hx]
      have : project.id < db.nextId := h5 project hprojmem
      simp only [hprojid] at this
      exact Nat.lt_succ_of_lt this
  · intro p hmem hpopen
    rw [hcount]
    exact h13 p hmem hpopen
  · intro q
    rw [hcount]
    exact h14 q

/-- `accept_request` preserves the invariant. -/
theorem inv_accept_request {db db' : DB} {rid : Nat} {u : User}
    {x : ProjectRequest} (hInv : Inv db)
    (h : accept_request db rid u = .ok (db', x)) : Inv db' := by
  obtain ⟨request, project, hreq, hpend, hp, hbuy, hopen, hx, hdb⟩ :=
    accept_request_ok h
  obtain ⟨hreqmem, hreqid⟩ := getRequest_mem hreq
  obtain ⟨hprojmem, hprojid⟩ := getProject_mem hp
  obtain ⟨h1, h2, h3, h4, h5, h6, h7, h8, h9, h10, h11, h12, h13, h14,
    h15, h16⟩ := hInv
  subst hdb
  have hzero : countAccepted db request.project_id = 0 := by
    have := h13 project hprojmem hopen
    rwa [hprojid] at this
  have hfRid : ∀ a : ProjectRequest,
      ((if a.id == rid then { a with status := RequestStatus.ACCEPTED }
        else if a.project_id == request.project_id && a.id != rid
            && a.status == RequestStatus.PENDING then
          { a with status := RequestStatus.REJECTED }
        else a) : ProjectRequest).id = a.id := by
    intro a; split
    · rfl
    · split <;> rfl
  have hfRproj : ∀ a : ProjectRequest,
      ((if a.id == rid then { a with status := RequestStatus.ACCEPTED }
        else if a.project_id == request.project_id && a.id != rid
            && a.status == RequestStatus.PENDING then
          { a with status := RequestStatus.REJECTED }
        else a) : ProjectRequest).project_id = a.project_id := by
    intro a; split
    · rfl
    · split <;> rfl
  have hfPid : ∀ a : Project,
      ((if a.id == request.project_id then
          { a with assigned_solver_id := some request.solver_id,
                   status := ProjectStatus.ASSIGNED }
        else a) : Project).id = a.id := by
    intro a; split <;> rfl
  -- For any project id other than the accepted request's project, the
  -- bulk update does not disturb the ACCEPTED count.
  have hcount_ne : ∀ q : Nat, q ≠ request.project_id →
      (db.requests.map (fun r =>
        if r.id == rid then { r with status := RequestStatus.ACCEPTED }
        else if r.project_id == request.project_id && r.id != rid
            && r.status == RequestStatus.PENDING then
          { r with status := RequestStatus.REJECTED }
        else r)).countP (fun r : ProjectRequest => r.project_id == q &&
          r.status == RequestStatus.ACCEPTED) = countAccepted db q := by
    intro q hq
    unfold countAccepted
    refine countP_map_congr _ _ _ _ (fun a ha => ?_)
    split
    · next hc =>
      have ha_eq : a = request := eq_of_key_pairwise (fun r : ProjectRequest => r.id) h2 ha
        hreqmem (by show a.id = request.id; rw [hreqid]; simpa using hc)
      have : (request.project_id == q) = false := by
        simp [Ne.symm hq]
      simp [ha_eq, this]
    · split
      · next hc =>
        have hproj : a.project_id = request.project_id := by
          simp only [Bool.and_eq_true, beq_iff_eq] at hc
          exact hc.1.1
        have : (a.project_id == q) = false := by
          simp [hproj, Ne.symm hq]
        simp [this]
      · rfl
  -- At the accepted request's project, the post-cascade ACCEPTED rows
  -- are exactly the rows whose id is the accepted id.
  have hcount_target :
      (db.requests.map (fun r =>
        if r.id == rid then { r with status := RequestStatus.ACCEPTED }
        else if r.project_id == request.project_id && r.id != rid
            && r.status == RequestStatus.PENDING then
          { r with status := RequestStatus.REJECTED }
        else r)).countP (fun r : ProjectRequest =>
          r.project_id == request.project_id &&
          r.status == RequestStatus.ACCEPTED)
        = db.requests.countP (fun r : ProjectRequest => r.id == rid) := by
    refine countP_map_congr _ _ _ _ (fun a ha => ?_)
    split
    · next hc =>
      have ha_eq : a = request := eq_of_key_pairwise (fun r : ProjectRequest => r.id) h2 ha
        hreqmem (by show a.id = request.id; rw [hreqid]; simpa using hc)
      simp [hc, ha_eq, hreqid]
    · next hc =>
      split
      · next hc2 =>
        have : (a.id == rid) = false := by
          simp only [Bool.and_eq_true, bne_iff_ne, beq_iff_eq] at hc2
          simp [hc2.1.2]
        simp [this]
      · have hnot := List.countP_eq_zero.mp hzero a ha
        have : (a.id == rid) = false := by
          simpa using hc
        simp only [Bool.and_eq_true, beq_iff_eq] at hnot
        simp only [this]
        by_cases hap : a.project_id = request.project_id
        · have : a.status ≠ RequestStatus.ACCEPTED := fun hs => hnot ⟨hap, hs⟩
          simp [this]
        · simp [hap]
  refine ⟨?_, ?_, h3, h4, ?_, ?_, ?_, ?_, ?_, ?_, ?_, h12, ?_, ?_, h15, ?_⟩
  · exact pairwise_key_map (fun p : Project => p.id) _ hfPid h1
  · exact pairwise_key_map (fun r : ProjectRequest => r.id) _ hfRid h2
  · intro p hmem
    obtain ⟨a, ha, rfl⟩ := List.mem_map.mp hmem
    rw [hfPid]
    exact h5 a ha
  · intro r hr
    obtain ⟨a, ha, rfl⟩ := List.mem_map.mp hr
    rw [hfRid]
    exact h6 a ha
  · exact h7
  · exact h8
  · intro r hr
    obtain ⟨a, ha, rfl⟩ := List.mem_map.mp hr
    rw [hfRproj]
    exact h9 a ha
  · intro p hmem
    obtain ⟨a, ha, rfl⟩ := List.mem_map.mp hmem
    split
    · simp
    · exact h10 a ha
  · intro t0 ht0
    obtain ⟨p, hpm, hid, hst⟩ := h11 t0 ht0
    refine ⟨(if (p.id == request.project_id) = true then
      { p with assigned_solver_id := some request.solver_id,
               status := ProjectStatus.ASSIGNED }
      else p), List.mem_map.mpr ⟨p, hpm, rfl⟩, ?_, ?_⟩
    · rw [hfPid]; exact hid
    · split <;> simp [hst]
  · intro p hmem hpopen
    obtain ⟨a, ha, rfl⟩ := List.mem_map.mp hmem
    by_cases hc : (a.id == request.project_id) = true
    · rw [if_pos hc] at hpopen
      exact absurd hpopen (by simp)
    · rw [if_neg (by simpa using hc)] at hpopen ⊢
      have haq : a.id ≠ request.project_id := by simpa using hc
      unfold countAccepted
      rw [hcount_ne a.id haq]
      exact h13 a ha hpopen
  · intro q
    by_cases hq : q = request.project_id
    · subst hq
      unfold countAccepted
      rw [hcount_target]
      exact countP_key_le_one (fun r : ProjectRequest => r.id) rid h2
    · unfold countAccepted
      rw [hcount_ne q hq]
      exact h14 q
  · intro p hmem hc
    obtain ⟨a, ha, rfl⟩ := List.mem_map.mp hmem
    by_cases hc2 : (a.id == request.project_id) = true
    · rw [if_pos hc2] at hc
      exact absurd hc (by simp)
    · rw [if_neg (by simpa using hc2)] at hc ⊢
      exact h16 a ha hc

/-- `reject_request` preserves the invariant. -/
theorem inv_reject_request {db db' : DB} {rid : Nat} {u : User}
    {x : ProjectRequest} (hInv : Inv db)
    (h : reject_request db rid u = .ok (db', x)) : Inv db' := by
  obtain ⟨request, project, hreq, hpend, hp, hbuy, hx, hdb⟩ :=
    reject_request_ok h
  obtain ⟨hreqmem, hreqid⟩ := getRequest_mem hreq
  obtain ⟨h1, h2, h3, h4, h5, h6, h7, h8, h9, h10, h11, h12, h13, h14,
    h15, h16⟩ := hInv
  subst hdb
  have hgid : ∀ a : ProjectRequest,
      ((if a.id == rid then x else a) : ProjectRequest).id = a.id := by
    intro a; split
    · next hc =>
      rw [hx]
      show request.id = a.id
      rw [hreqid]
      exact (by simpa using hc : a.id = rid).symm
    · rfl
  have hle : ∀ q : Nat,
      (db.requests.map (fun r => if r.id == rid then x else r)).countP
        (fun r : ProjectRequest => r.project_id == q &&
          r.status == RequestStatus.ACCEPTED) ≤ countAccepted db q := by
    intro q
    refine countP_map_le _ _ _ (fun a ha hpa => ?_)
    by_cases hc : (a.id == rid) = true
    · rw [if_pos hc, hx] at hpa
      simp at hpa
    · rwa [if_neg (by simpa using hc)] at hpa
  refine ⟨h1, ?_, h3, h4, h5, ?_, h7, h8, ?_, h10, h11, h12, ?_, ?_, h15, h16⟩
  · exact pairwise_key_map (fun r : ProjectRequest => r.id) _ hgid h2
  · intro r hr
    obtain ⟨a, ha, rfl⟩ := List.mem_map.mp hr
    rw [hgid]
    exact h6 a ha
  · intro r hr
    obtain ⟨a, ha, rfl⟩ := List.mem_map.mp hr
    by_cases hc : (a.id == rid) = true
    · rw [if_pos hc, hx]
      exact h9 request hreqmem
    · rw [if_neg (by simpa using hc)]
      exact h9 a ha
  · intro p hmem hpopen
    have h1le := hle p.id
    have h0 := h13 p hmem hpopen
    unfold countAccepted at h1le h0 ⊢
    dsimp only
    omega
  · intro q
    have h1le := hle q
    have h0 := h14 q
    unfold countAccepted at h1le h0 ⊢
    dsimp only
    omega
  -- projects, tasks and submissions are untouched, so the remaining
  -- fields carry over unchanged.

/-- `create_task` preserves the invariant. -/
theorem inv_create_task {db db' : DB} {u : User} {pid : Nat} {t d : String}
    {x : Task} (hInv : Inv db)
    (h : create_task db u pid t d = .ok (db', x)) : Inv db' := by
  obtain ⟨project, hp, hassigned, hsolver, hx, hdb⟩ := create_task_ok h
  obtain ⟨hprojmem, hprojid⟩ := getProject_mem hp
  obtain ⟨h1, h2, h3, h4, h5, h6, h7, h8, h9, h10, h11, h12, h13, h14,
    h15, h16⟩ := hInv
  subst hdb
  refine ⟨h1, h2, ?_, h4, ?_, ?_, ?_, ?_, ?_, h10, ?_, ?_, h13, h14, h15, ?_⟩
  · refine pairwise_key_append (fun t0 : Task => t0.id) h3 (fun a ha => ?_)
    rw [hx]
    exact Nat.ne_of_lt (h7 a ha)
  · exact fun p hmem => Nat.lt_succ_of_lt (h5 p hmem)
  · exact fun r hr => Nat.lt_succ_of_lt (h6 r hr)
  · intro t0 ht0
    rcases List.mem_append.mp ht0 with ht0 | ht0
    · exact Nat.lt_succ_of_lt (h7 t0 ht0)
    · rw [List.mem_singleton.mp ht0, hx]; exact Nat.lt_succ_self _
  · exact fun s hs => Nat.lt_succ_of_lt (h8 s hs)
  · exact fun r hr => Nat.lt_succ_of_lt (h9 r hr)
  · intro t0 ht0
    rcases List.mem_append.mp ht0 with ht0 | ht0
    · exact h11 t0 ht0
    · rw [List.mem_singleton.mp ht0, hx]
      exact ⟨project, hprojmem, hprojid, by rw [hassigned]; simp⟩
  · intro s hs
    obtain ⟨t0, ht0, hid⟩ := h12 s hs
    exact ⟨t0, List.mem_append_left _ ht0, hid⟩
  · intro p hmem hc
    obtain ⟨t0, ht0, hid⟩ := h16 p hmem hc
    exact ⟨t0, List.mem_append_left _ ht0, hid⟩

/-- `update_task` preserves the invariant. -/
theorem inv_update_task {db db' : DB} {tid : Nat} {u : User}
    {t d : Option String} {x : Task} (hInv : Inv db)
    (h : update_task db tid u t d = .ok (db', x)) : Inv db' := by
  obtain ⟨task, project, htask, hp, hsolver, hnc, hx, hdb⟩ := update_task_ok h
  obtain ⟨htaskmem, htaskid⟩ := getTask_mem htask
  obtain ⟨h1, h2, h3, h4, h5, h6, h7, h8, h9, h10, h11, h12, h13, h14,
    h15, h16⟩ := hInv
  subst hdb
  have hgid : ∀ a : Task,
      ((if a.id == tid then x else a) : Task).id = a.id := by
    intro a; split
    · next hc =>
      rw [hx]
      show task.id = a.id
      rw [htaskid]
      exact (by simpa using hc : a.id = tid).symm
    · rfl
  have hgmem : ∀ a ∈ db.tasks,
      ((if a.id == tid then x else a) : Task).project_id = a.project_id ∧
      ((if a.id == tid then x else a) : Task).status = a.status := by
    intro a ha
    split
    · next hc =>
      have : a = task := eq_of_key_pairwise (fun t0 : Task => t0.id) h3 ha
        htaskmem (by show a.id = task.id; rw [htaskid]; simpa using hc)
      rw [this, hx]
      exact ⟨rfl, rfl⟩
    · exact ⟨rfl, rfl⟩
  refine ⟨h1, h2, ?_, h4, h5, h6, ?_, h8, h9, h10, ?_, ?_, h13, h14, h15, ?_⟩
  · exact pairwise_key_map (fun t0 : Task => t0.id) _ hgid h3
  · intro t0 ht0
    obtain ⟨a, ha, rfl⟩ := List.mem_map.mp ht0
    rw [hgid]
    exact h7 a ha
  · intro t0 ht0
    obtain ⟨a, ha, rfl⟩ := List.mem_map.mp ht0
    rw [(hgmem a ha).1]
    exact h11 a ha
  · intro s hs
    obtain ⟨t0, ht0, hid⟩ := h12 s hs
    refine ⟨(if (t0.id == tid) = true then x else t0),
      List.mem_map.mpr ⟨t0, ht0, rfl⟩, ?_⟩
    rw [hgid]
    exact hid
  · intro p hmem hc
    obtain ⟨t0, ht0, hid⟩ := h16 p hmem hc
    refine ⟨(if (t0.id == tid) = true then x else t0),
      List.mem_map.mpr ⟨t0, ht0, rfl⟩, ?_⟩
    rw [(hgmem t0 ht0).1]
    exact hid

/-- `create_submission` preserves the invariant. -/
theorem inv_create_submission {db db' : DB} {u : User} {tid : Nat}
    {f : UploadFile} {notes : Option String} {b : Bool} {x : Submission}
    (hInv : Inv db)
    (h : create_submission db u tid f notes b = .ok (db', x)) : Inv db' := by
  obtain ⟨task, project, htask, hp, hsolver, hstat, hz, hb, hnodup, hx, hdb⟩ :=
    create_submission_ok h
  obtain ⟨htaskmem, htaskid⟩ := getTask_mem htask
  obtain ⟨h1, h2, h3, h4, h5, h6, h7, h8, h9, h10, h11, h12, h13, h14,
    h15, h16⟩ := hInv
  subst hdb
  have hgid : ∀ a : Task,
      ((if a.id == tid then { a with status := TaskStatus.SUBMITTED }
        else a) : Task).id = a.id := by
    intro a; split <;> rfl
  have hgproj : ∀ a : Task,
      ((if a.id == tid then { a with status := TaskStatus.SUBMITTED }
        else a) : Task).project_id = a.project_id := by
    intro a; split <;> rfl
  refine ⟨h1, h2, ?_, ?_, ?_, ?_, ?_, ?_, ?_, h10, ?_, ?_, h13, h14, ?_, ?_⟩
  · exact pairwise_key_map (fun t0 : Task => t0.id) _ hgid h3
  · refine pairwise_key_append (fun s : Submission => s.id) h4
      (fun a ha => ?_)
    rw [hx]
    exact Nat.ne_of_lt (h8 a ha)
  · exact fun p hmem => Nat.lt_succ_of_lt (h5 p hmem)
  · exact fun r hr => Nat.lt_succ_of_lt (h6 r hr)
  · intro t0 ht0
    obtain ⟨a, ha, rfl⟩ := List.mem_map.mp ht0
    rw [hgid]
    exact Nat.lt_succ_of_lt (h7 a ha)
  · intro s hs
    rcases List.mem_append.mp hs with hs | hs
    · exact Nat.lt_succ_of_lt (h8 s hs)
    · rw [List.mem_singleton.mp hs, hx]; exact Nat.lt_succ_self _
  · exact fun r hr => Nat.lt_succ_of_lt (h9 r hr)
  · intro t0 ht0
    obtain ⟨a, ha, rfl⟩ := List.mem_map.mp ht0
    rw [hgproj]
    exact h11 a ha
  · intro s hs
    rcases List.mem_append.mp hs with hs | hs
    · obtain ⟨t0, ht0, hid⟩ := h12 s hs
      refine ⟨(if (t0.id == tid) = true then
        { t0 with status := TaskStatus.SUBMITTED } else t0),
        List.mem_map.mpr ⟨t0, ht0, rfl⟩, ?_⟩
      rw [hgid]
      exact hid
    · rw [List.mem_singleton.mp hs, hx]
      refine ⟨(if (task.id == tid) = true then
        { task with status := TaskStatus.SUBMITTED } else task),
        List.mem_map.mpr ⟨task, htaskmem, rfl⟩, ?_⟩
      rw [hgid]
      exact htaskid
  · intro q
    unfold countPendingReview
    dsimp only
    rw [List.countP_append, List.countP_cons, List.countP_nil]
    by_cases hq : q = tid
    · subst hq
      have h0 : db.submissions.countP (fun s : Submission =>
          s.task_id == q && s.status == SubmissionStatus.PENDING_REVIEW)
          = 0 := by
        rw [List.countP_eq_zero]
        intro s hs
        have := hnodup s hs
        simp only [Bool.and_eq_true, beq_iff_eq]
        rintro ⟨hq1, hq2⟩
        exact this ⟨hq1, hq2⟩
      rw [h0, hx]
      simp
    · have h0 := h15 q
      unfold countPendingReview at h0
      have hxq : ((x.task_id == q &&
          x.status == SubmissionStatus.PENDING_REVIEW) : Bool) = false := by
        rw [hx]
        simp [hq, Ne.symm hq]
      rw [hxq]
      simpa using h0
  · intro p hmem hc
    obtain ⟨t0, ht0, hid⟩ := h16 p hmem hc
    refine ⟨(if (t0.id == tid) = true then
      { t0 with status := TaskStatus.SUBMITTED } else t0),
      List.mem_map.mpr ⟨t0, ht0, rfl⟩, ?_⟩
    rw [hgproj]
    exact hid

/-- `accept_submission` preserves the invariant. -/
theorem inv_accept_submission {db db' : DB} {sid : Nat} {u : User}
    {x : Submission} (hInv : Inv db)
    (h : accept_submission db sid u = .ok (db', x)) : Inv db' := by
  obtain ⟨submission, task, project, hsub, htask, hp, hbuy, hpend, hx, hdb⟩ :=
    accept_submission_ok h
  obtain ⟨hsubmem, hsubid⟩ := getSubmission_mem hsub
  obtain ⟨htaskmem, htaskid⟩ := getTask_mem htask
  obtain ⟨hprojmem, hprojid⟩ := getProject_mem hp
  obtain ⟨h1, h2, h3, h4, h5, h6, h7, h8, h9, h10, h11, h12, h13, h14,
    h15, h16⟩ := hInv
  subst hdb
  have hfTid : ∀ a : Task,
      ((if a.id == task.id then { a with status := TaskStatus.COMPLETED }
        else a) : Task).id = a.id := by
    intro a; split <;> rfl
  have hfTproj : ∀ a : Task,
      ((if a.id == task.id then { a with status := TaskStatus.COMPLETED }
        else a) : Task).project_id = a.project_id := by
    intro a; split <;> rfl
  have hfSid : ∀ a : Submission,
      ((if a.id == sid then x else a) : Submission).id = a.id := by
    intro a; split
    · next hc =>
      rw [hx]
      show submission.id = a.id
      rw [hsubid]
      exact (by simpa using hc : a.id = sid).symm
    · rfl
  have hfStask : ∀ a ∈ db.submissions,
      ((if a.id == sid then x else a) : Submission).task_id = a.task_id := by
    intro a ha
    split
    · next hc =>
      have : a = submission := eq_of_key_pairwise
        (fun s : Submission => s.id) h4 ha hsubmem
        (by show a.id = submission.id; rw [hsubid]; simpa using hc)
      rw [this, hx]
    · rfl
  have hfCid : ∀ a : Project,
      ((if a.id == project.id then { a with status := ProjectStatus.COMPLETED }
        else a) : Project).id = a.id := by
    intro a; split <;> rfl
  have hprojne : project.status ≠ .OPEN := by
    obtain ⟨p1, hp1m, hp1id, hp1st⟩ := h11 task htaskmem
    have : p1 = project := eq_of_key_pairwise (fun p : Project => p.id) h1
      hp1m hprojmem (by show p1.id = project.id; rw [hp1id, hprojid])
    rwa [this] at hp1st
  have hassigned : project.assigned_solver_id ≠ none :=
    (h10 project hprojmem).mpr ((ProjectStatus.ne_open_iff _).mp hprojne)
  refine ⟨?_, h2, ?_, ?_, ?_, h6, ?_, ?_, h9, ?_, ?_, ?_, ?_, ?_, ?_, ?_⟩
  · split
    · exact pairwise_key_map (fun p : Project => p.id) _ hfCid h1
    · exact h1
  · exact pairwise_key_map (fun t0 : Task => t0.id) _ hfTid h3
  · exact pairwise_key_map (fun s : Submission => s.id) _ hfSid h4
  · split
    · intro p hmem
      obtain ⟨a, ha, rfl⟩ := List.mem_map.mp hmem
      rw [hfCid]
      exact h5 a ha
    · exact h5
  · intro t0 ht0
    obtain ⟨a, ha, rfl⟩ := List.mem_map.mp ht0
    rw [hfTid]
    exact h7 a ha
  · intro s hs
    obtain ⟨a, ha, rfl⟩ := List.mem_map.mp hs
    rw [hfSid]
    exact h8 a ha
  · split
    · intro p hmem
      obtain ⟨a, ha, rfl⟩ := List.mem_map.mp hmem
      by_cases hc : (a.id == project.id) = true
      · rw [if_pos hc]
        have ha_eq : a = project := eq_of_key_pairwise
          (fun p : Project => p.id) h1 ha hprojmem
          (by show a.id = project.id; simpa using hc)
        rw [ha_eq]
        exact iff_of_true hassigned (Or.inr rfl)
      · rw [if_neg (by simpa using hc)]
        exact h10 a ha
    · exact h10
  · intro t0 ht0
    obtain ⟨a, ha, rfl⟩ := List.mem_map.mp ht0
    rw [hfTproj]
    obtain ⟨p, hpm, hid, hst⟩ := h11 a ha
    split
    · refine ⟨(if (p.id == project.id) = true then
        { p with status := ProjectStatus.COMPLETED } else p),
        List.mem_map.mpr ⟨p, hpm, rfl⟩, ?_, ?_⟩
      · rw [hfCid]; exact hid
      · split <;> simp [hst]
    · exact ⟨p, hpm, hid, hst⟩
  · intro s hs
    obtain ⟨a, ha, rfl⟩ := List.mem_map.mp hs
    rw [hfStask a ha]
    obtain ⟨t0, ht0, hid⟩ := h12 a ha
    refine ⟨(if (t0.id == task.id) = true then
      { t0 with status := TaskStatus.COMPLETED } else t0),
      List.mem_map.mpr ⟨t0, ht0, rfl⟩, ?_⟩
    rw [hfTid]
    exact hid
  · split
    · intro p hmem hpopen
      obtain ⟨a, ha, rfl⟩ := List.mem_map.mp hmem
      by_cases hc : (a.id == project.id) = true
      · rw [if_pos hc] at hpopen
        exact absurd hpopen (by simp)
      · rw [if_neg (by simpa using hc)] at hpopen ⊢
        have h0 := h13 a ha hpopen
        unfold countAccepted at h0 ⊢
        dsimp only
        exact h0
    · intro p hmem hpopen
      have h0 := h13 p hmem hpopen
      unfold countAccepted at h0 ⊢
      dsimp only
      exact h0
  · intro q
    have h0 := h14 q
    unfold countAccepted at h0 ⊢
    dsimp only
    exact h0
  · intro q
    have h0 := h15 q
    unfold countPendingReview at h0 ⊢
    dsimp only
    refine Nat.le_trans (countP_map_le _ _ _ (fun a ha hpa => ?_)) h0
    by_cases hc : (a.id == sid) = true
    · rw [if_pos hc, hx] at hpa
      simp at hpa
    · rwa [if_neg (by simpa using hc)] at hpa
  · split
    · next hcnt =>
      intro p hmem hc
      obtain ⟨a, ha, rfl⟩ := List.mem_map.mp hmem
      by_cases hc2 : (a.id == project.id) = true
      · refine ⟨(if (task.id == task.id) = true then
          { task with status := TaskStatus.COMPLETED } else task),
          List.mem_map.mpr ⟨task, htaskmem, rfl⟩, ?_⟩
        rw [hfTproj, hfCid]
        rw [← hprojid]
        exact (by simpa using hc2 : a.id = project.id).symm
      · rw [if_neg (by simpa using hc2)] at hc ⊢
        obtain ⟨t0, ht0, hid⟩ := h16 a ha hc
        refine ⟨(if (t0.id == task.id) = true then
          { t0 with status := TaskStatus.COMPLETED } else t0),
          List.mem_map.mpr ⟨t0, ht0, rfl⟩, ?_⟩
        rw [hfTproj]
        exact hid
    · intro p hmem hc
      obtain ⟨t0, ht0, hid⟩ := h16 p hmem hc
      refine ⟨(if (t0.id == task.id) = true then
        { t0 with status := TaskStatus.COMPLETED } else t0),
        List.mem_map.mpr ⟨t0, ht0, rfl⟩, ?_⟩
      rw [hfTproj]
      exact hid

/-- `reject_submission` preserves the invariant. -/
theorem inv_reject_submission {db db' : DB} {sid : Nat} {u : User}
    {n : String} {x : Submission} (hInv : Inv db)
    (h : reject_submission db sid u n = .ok (db', x)) : Inv db' := by
  obtain ⟨submission, task, project, hsub, htask, hp, hbuy, hpend, hx, hdb⟩ :=
    reject_submission_ok h
  obtain ⟨hsubmem, hsubid⟩ := getSubmission_mem hsub
  obtain ⟨htaskmem, htaskid⟩ := getTask_mem htask
  obtain ⟨h1, h2, h3, h4, h5, h6, h7, h8, h9, h10, h11, h12, h13, h14,
    h15, h16⟩ := hInv
  subst hdb
  have hfTid : ∀ a : Task,
      ((if a.id == task.id then
        { a with status := TaskStatus.REVISION_REQUESTED }
        else a) : Task).id = a.id := by
    intro a; split <;> rfl
  have hfTproj : ∀ a : Task,
      ((if a.id == task.id then
        { a with status := TaskStatus.REVISION_REQUESTED }
        else a) : Task).project_id = a.project_id := by
    intro a; split <;> rfl
  have hfSid : ∀ a : Submission,
      ((if a.id == sid then x else a) : Submission).id = a.id := by
    intro a; split
    · next hc =>
      rw [hx]
      show submission.id = a.id
      rw [hsubid]
      exact (by simpa using hc : a.id = sid).symm
    · rfl
  have hfStask : ∀ a ∈ db.submissions,
      ((if a.id == sid then x else a) : Submission).task_id = a.task_id := by
    intro a ha
    split
    · next hc =>
      have : a = submission := eq_of_key_pairwise
        (fun s : Submission => s.id) h4 ha hsubmem
        (by show a.id = submission.id; rw [hsubid]; simpa using hc)
      rw [this, hx]
    · rfl
  refine ⟨h1, h2, ?_, ?_, h5, h6, ?_, ?_, h9, h10, ?_, ?_, ?_, ?_, ?_, ?_⟩
  · exact pairwise_key_map (fun t0 : Task => t0.id) _ hfTid h3
  · exact pairwise_key_map (fun s : Submission => s.id) _ hfSid h4
  · intro t0 ht0
    obtain ⟨a, ha, rfl⟩ := List.mem_map.mp ht0
    rw [hfTid]
    exact h7 a ha
  · intro s hs
    obtain ⟨a, ha, rfl⟩ := List.mem_map.mp hs
    rw [hfSid]
    exact h8 a ha
  · intro t0 ht0
    obtain ⟨a, ha, rfl⟩ := List.mem_map.mp ht0
    rw [hfTproj]
    exact h11 a ha
  · intro s hs
    obtain ⟨a, ha, rfl⟩ := List.mem_map.mp hs
    rw [hfStask a ha]
    obtain ⟨t0, ht0, hid⟩ := h12 a ha
    refine ⟨(if (t0.id == task.id) = true then
      { t0 with status := TaskStatus.REVISION_REQUESTED } else t0),
      List.mem_map.mpr ⟨t0, ht0, rfl⟩, ?_⟩
    rw [hfTid]
    exact hid
  · intro p hmem hpopen
    have h0 := h13 p hmem hpopen
    unfold countAccepted at h0 ⊢
    dsimp only
    exact h0
  · intro q
    have h0 := h14 q
    unfold countAccepted at h0 ⊢
    dsimp only
    exact h0
  · intro q
    have h0 := h15 q
    unfold countPendingReview at h0 ⊢
    dsimp only
    refine Nat.le_trans (countP_map_le _ _ _ (fun a ha hpa => ?_)) h0
    by_cases hc : (a.id == sid) = true
    · rw [if_pos hc, hx] at hpa
      simp at hpa
    · rwa [if_neg (by simpa using hc)] at hpa
  · intro p hmem hc
    obtain ⟨t0, ht0, hid⟩ := h16 p hmem hc
    refine ⟨(if (t0.id == task.id) = true then
      { t0 with status := TaskStatus.REVISION_REQUESTED } else t0),
      List.mem_map.mpr ⟨t0, ht0, rfl⟩, ?_⟩
    rw [hfTproj]
    exact hid

/-- Every engine operation preserves the invariant. -/
theorem inv_step {db db' : DB} (hInv : Inv db) (h : Step db db') : Inv db' := by
  cases h with
  | createProject u t d => exact inv_create_project hInv
  | updateProject db' pid u t d x hop => exact inv_update_project hInv hop
  | createRequest db' u pid cl x hop => exact inv_create_request hInv hop
  | acceptRequest db' rid u x hop => exact inv_accept_request hInv hop
  | rejectRequest db' rid u x hop => exact inv_reject_request hInv hop
  | createTask db' u pid t d x hop => exact inv_create_task hInv hop
  | updateTask db' tid u t d x hop => exact inv_update_task hInv hop
  | createSubmission db' u tid f notes b x hop =>
      exact inv_create_submission hInv hop
  | acceptSubmission db' sid u x hop => exact inv_accept_submission hInv hop
  | rejectSubmission db' sid u n x hop => exact inv_reject_submission hInv hop

/-- Every reachable store satisfies the invariant. -/
theorem inv_reachable {db : DB} (h : Reachable db) : Inv db := by
  induction h with
  | init => exact inv_empty
  | step _ hstep ih => exact inv_step ih hstep

/-! ### The literal scenario run is reachable -/

/-- `wdb1` is reachable (one `CreateProject`). -/
theorem reachable_wdb1 : Reachable wdb1 :=
  Reachable.step Reachable.init
    (Step.createProject DB.empty buyer0 "Site" "Build a site")

/-- `wdb2` is reachable. -/
theorem reachable_wdb2 : Reachable wdb2 :=
  Reachable.step reachable_wdb1
    (Step.createRequest wdb1 wdb2 solverA 0 "I can do it"
      ⟨1, 0, 101, "I can do it", .PENDING⟩ (by rfl))

/-- `wdb3` is reachable. -/
theorem reachable_wdb3 : Reachable wdb3 :=
  Reachable.step reachable_wdb2
    (Step.createRequest wdb2 wdb3 solverB 0 "Me too"
      ⟨2, 0, 102, "Me too", .PENDING⟩ (by rfl))

/-- `wdb4` is reachable. -/
theorem reachable_wdb4 : Reachable wdb4 :=
  Reachable.step reachable_wdb3
    (Step.acceptRequest wdb3 wdb4 1 buyer0
      ⟨1, 0, 101, "I can do it", .ACCEPTED⟩ (by rfl))

/-- `wdb5` is reachable. -/
theorem reachable_wdb5 : Reachable wdb5 :=
  Reachable.step reachable_wdb4
    (Step.createTask wdb4 wdb5 solverA 0 "Task" "Do work"
      ⟨3, 0, 101, "Task", "Do work", .IN_PROGRESS⟩ (by rfl))

/-- `wdb6` is reachable. -/
theorem reachable_wdb6 : Reachable wdb6 :=
  Reachable.step reachable_wdb5
    (Step.createSubmission wdb5 wdb6 solverA 3 zipFile none true
      ⟨4, 3, "submissions/0/3/4.zip", "work.zip", 4, none,
        .PENDING_REVIEW, none⟩ (by rfl))

/-- `wdb7` is reachable. -/
theorem reachable_wdb7 : Reachable wdb7 :=
  Reachable.step reachable_wdb6
    (Step.rejectSubmission wdb6 wdb7 4 buyer0 "missing tests"
      ⟨4, 3, "submissions/0/3/4.zip", "work.zip", 4, none,
        .REJECTED, some "missing tests"⟩ (by rfl))

/-- `wdb8` is reachable. -/
theorem reachable_wdb8 : Reachable wdb8 :=
  Reachable.step reachable_wdb7
    (Step.createSubmission wdb7 wdb8 solverA 3 zipFile none true
      ⟨5, 3, "submissions/0/3/5.zip", "work.zip", 4, none,
        .PENDING_REVIEW, none⟩ (by rfl))

/-- `wdb9` is reachable. -/
theorem reachable_wdb9 : Reachable wdb9 :=
  Reachable.step reachable_wdb8
    (Step.acceptSubmission wdb8 wdb9 5 buyer0
      ⟨5, 3, "submissions/0/3/5.zip", "work.zip", 4, none,
        .ACCEPTED, none⟩ (by rfl))

/-! ### Claim theorems -/

/-- C3: for every project state reachable from creation through any
sequence of engine operations, `assigned_solver_id` is non-null if and
only if the project's status is `ASSIGNED` or `COMPLETED`. -/
theorem C3_assigned_solver_iff_status {db : DB} (h : Reachable db) :
    ∀ p ∈ db.projects, p.assigned_solver_id ≠ none ↔
      (p.status = .ASSIGNED ∨ p.status = .COMPLETED) :=
  (inv_reachable h).solverIff

/-- Witness for C3 at the reachable store `wdb4` and its stored
project `wproj4`. -/
theorem C3_witness : wproj4.assigned_solver_id ≠ none ↔
    (wproj4.status = .ASSIGNED ∨ wproj4.status = .COMPLETED) :=
  C3_assigned_solver_iff_status reachable_wdb4 wproj4 (by decide)

/-- C4: in every reachable store each project carries at most one
`ACCEPTED` request, and a step can only increase a project's
`ACCEPTED`-request count when that project is `OPEN` before the step
(`accept_request` is the only operation that creates an `ACCEPTED`
status and it requires the project `OPEN`, simultaneously moving it to
`ASSIGNED`, so a second accept on the same project fails). -/
theorem C4_accepted_unique_and_only_while_open {db : DB}
    (h : Reachable db) :
    (∀ pid, countAccepted db pid ≤ 1) ∧
    (∀ db' : DB, Step db db' → ∀ pid,
      countAccepted db pid < countAccepted db' pid →
      (db.getProject pid).map Project.status = some .OPEN) := by
  have hInv := inv_reachable h
  refine ⟨hInv.acceptedLeOne, ?_⟩
  intro db' hstep pid hlt
  cases hstep with
  | createProject u t d =>
    have heq : countAccepted (create_project db u t d).1 pid
        = countAccepted db pid := rfl
    omega
  | updateProject db' pid2 u t d x hop =>
    obtain ⟨project, hp, hbuy, hopen, hx, hdb⟩ := update_project_ok hop
    have heq : countAccepted db' pid = countAccepted db pid := by
      rw [hdb]; rfl
    omega
  | createRequest db' u pid2 cl x hop =>
    obtain ⟨project, hp, hopen, hnodup, hx, hdb⟩ := create_request_ok hop
    have heq : countAccepted db' pid = countAccepted db pid := by
      rw [hdb]
      unfold countAccepted
      dsimp only
      rw [List.countP_append, List.countP_cons, List.countP_nil, hx]
      simp
    omega
  | acceptRequest db' rid u x hop =>
    obtain ⟨request, project, hreq, hpend, hp, hbuy, hopen, hx, hdb⟩ :=
      accept_request_ok hop
    obtain ⟨hreqmem, hreqid⟩ := getRequest_mem hreq
    by_cases hq : pid = request.project_id
    · subst hq
      rw [hp]
      simp [hopen]
    · have hle : countAccepted db' pid ≤ countAccepted db pid := by
        rw [hdb]
        unfold countAccepted
        dsimp only
        refine countP_map_le _ _ _ (fun a ha hpa => ?_)
        by_cases hc : (a.id == rid) = true
        · exfalso
          have ha_eq : a = request := eq_of_key_pairwise
            (fun r : ProjectRequest => r.id) hInv.reqIds ha hreqmem
            (by show a.id = request.id; rw [hreqid]; simpa using hc)
          rw [if_pos hc] at hpa
          simp only [Bool.and_eq_true, beq_iff_eq] at hpa
          exact hq ((ha_eq ▸ hpa.1 : request.project_id = pid)).symm
        · rw [if_neg (by simpa using hc)] at hpa
          by_cases hc2 : (a.project_id == request.project_id && a.id != rid
              && a.status == RequestStatus.PENDING) = true
          · rw [if_pos hc2] at hpa
            simp at hpa
          · rwa [if_neg (by simpa using hc2)] at hpa
      omega
  | rejectRequest db' rid u x hop =>
    obtain ⟨request, project, hreq, hpend, hp, hbuy, hx, hdb⟩ :=
      reject_request_ok hop
    have hle : countAccepted db' pid ≤ countAccepted db pid := by
      rw [hdb]
      unfold countAccepted
      dsimp only
      refine countP_map_le _ _ _ (fun a ha hpa => ?_)
      by_cases hc : (a.id == rid) = true
      · rw [if_pos hc, hx] at hpa
        simp at hpa
      · rwa [if_neg (by simpa using hc)] at hpa
    omega
  | createTask db' u pid2 t d x hop =>
    obtain ⟨project, hp, hst, hsolver, hx, hdb⟩ := create_task_ok hop
    have heq : countAccepted db' pid = countAccepted db pid := by
      rw [hdb]; rfl
    omega
  | updateTask db' tid u t d x hop =>
    obtain ⟨task, project, htask, hp, hsolver, hnc, hx, hdb⟩ :=
      update_task_ok hop
    have heq : countAccepted db' pid = countAccepted db pid := by
      rw [hdb]; rfl
    omega
  | createSubmission db' u tid f notes b x hop =>
    obtain ⟨task, project, htask, hp, hsolver, hstat, hz, hb, hnodup,
      hx, hdb⟩ := create_submission_ok hop
    have heq : countAccepted db' pid = countAccepted db pid := by
      rw [hdb]; rfl
    omega
  | acceptSubmission db' sid u x hop =>
    obtain ⟨submission, task, project, hsub, htask, hp, hbuy, hpend,
      hx, hdb⟩ := accept_submission_ok hop
    have heq : countAccepted db' pid = countAccepted db pid := by
      rw [hdb]; rfl
    omega
  | rejectSubmission db' sid u n x hop =>
    obtain ⟨submission, task, project, hsub, htask, hp, hbuy, hpend,
      hx, hdb⟩ := reject_submission_ok hop
    have heq : countAccepted db' pid = countAccepted db pid := by
      rw [hdb]; rfl
    omega

/-- Witness for C4 at the reachable store `wdb4` (project 0 has exactly
one `ACCEPTED` request). -/
theorem C4_witness : countAccepted wdb4 0 ≤ 1 :=
  (C4_accepted_unique_and_only_while_open reachable_wdb4).1 0

/-- When the access, state and payload checks of `create_submission`
pass but a `PENDING_REVIEW` submission already exists for the task, the
insert is refused with the duplicate-pending-review Conflict error. -/
theorem create_submission_conflict {db : DB} {u : User} {tid : Nat}
    {f : UploadFile} {notes : Option String} {task : Task}
    {project : Project}
    (htask : db.getTask tid = some task)
    (hp : db.getProject task.project_id = some project)
    (hsolver : project.assigned_solver_id = some u.id)
    (hstat : task.status = .IN_PROGRESS ∨ task.status = .REVISION_REQUESTED)
    (hz : validate_zip f = .ok ())
    (hpos : 0 < countPendingReview db tid) :
    create_submission db u tid f notes true
      = .error ⟨400, "Task already has a submission pending review"⟩ := by
  have hany : db.submissions.any (fun s => s.task_id == tid &&
      s.status == SubmissionStatus.PENDING_REVIEW) = true := by
    rw [List.any_eq_true]
    unfold countPendingReview at hpos
    obtain ⟨a, ha, hpa⟩ := List.countP_pos_iff.mp hpos
    exact ⟨a, ha, hpa⟩
  unfold create_submission
  rw [htask]
  dsimp only
  rw [hp]
  dsimp only
  rw [if_neg (by simp [hsolver])]
  rw [if_neg (by simp [hstat])]
  rw [hz]
  dsimp only
  rw [if_neg (by simp)]
  rw [if_pos hany]

/-- Witness for `create_submission_conflict` is not a claim obligation;
the lemma is shared by the C5 and C6 developments. -/
theorem create_submission_conflict_instance :
    create_submission
      { wdb6 with tasks := [⟨3, 0, 101, "Task", "Do work", .IN_PROGRESS⟩] }
      solverA 3 zipFile none true
      = .error ⟨400, "Task already has a submission pending review"⟩ := by
  rfl

/-- C5: in every reachable store each task has at most one
`PENDING_REVIEW` submission; `create_submission` fails with the
duplicate-pending-review error whenever one already exists (and the
earlier checks pass), and `accept_submission`/`reject_submission` only
ever move a `PENDING_REVIEW` submission to a terminal status. -/
theorem C5_pending_review_unique {db : DB} (h : Reachable db) :
    (∀ tid, countPendingReview db tid ≤ 1) ∧
    (∀ (u : User) (tid : Nat) (f : UploadFile) (notes : Option String)
      (task : Task) (project : Project),
      0 < countPendingReview db tid →
      db.getTask tid = some task →
      db.getProject task.project_id = some project →
      project.assigned_solver_id = some u.id →
      (task.status = .IN_PROGRESS ∨ task.status = .REVISION_REQUESTED) →
      validate_zip f = .ok () →
      create_submission db u tid f notes true
        = .error ⟨400, "Task already has a submission pending review"⟩) ∧
    (∀ (sid : Nat) (u : User) (db' : DB) (x : Submission),
      accept_submission db sid u = .ok (db', x) →
      (db.getSubmission sid).map Submission.status = some .PENDING_REVIEW ∧
      x.status = .ACCEPTED) ∧
    (∀ (sid : Nat) (u : User) (n : String) (db' : DB) (x : Submission),
      reject_submission db sid u n = .ok (db', x) →
      (db.getSubmission sid).map Submission.status = some .PENDING_REVIEW ∧
      x.status = .REJECTED) := by
  have hInv := inv_reachable h
  refine ⟨hInv.pendingLeOne, ?_, ?_, ?_⟩
  · intro u tid f notes task project hpos htask hp hsolver hstat hz
    exact create_submission_conflict htask hp hsolver hstat hz hpos
  · intro sid u db' x hop
    obtain ⟨submission, task, project, hsub, htask, hp, hbuy, hpend,
      hx, hdb⟩ := accept_submission_ok hop
    rw [hsub, hx]
    exact ⟨by simp [hpend], rfl⟩
  · intro sid u n db' x hop
    obtain ⟨submission, task, project, hsub, htask, hp, hbuy, hpend,
      hx, hdb⟩ := reject_submission_ok hop
    rw [hsub, hx]
    exact ⟨by simp [hpend], rfl⟩

/-- Witness for C5 at the reachable store `wdb8` (task 3 holds one
`PENDING_REVIEW` submission and one `REJECTED` one). -/
theorem C5_witness : countPendingReview wdb8 3 ≤ 1 :=
  (C5_pending_review_unique reachable_wdb8).1 3

/-- C10: a project that has no task is never `COMPLETED` in any
reachable store — the auto-completion count in `accept_submission`
always sees at least the just-completed task, so the
zero-incomplete-tasks condition is never vacuously satisfied. -/
theorem C10_no_tasks_never_completed {db : DB} (h : Reachable db) :
    ∀ p ∈ db.projects, (∀ t ∈ db.tasks, t.project_id ≠ p.id) →
      p.status ≠ .COMPLETED := by
  intro p hp hnone hc
  obtain ⟨t, ht, hid⟩ := (inv_reachable h).completedHasTask p hp hc
  exact hnone t ht hid

/-- Witness for C10 at the reachable store `wdb1` (project 0 exists and
no task exists at all). -/
theorem C10_witness : wproj1.status ≠ ProjectStatus.COMPLETED :=
  C10_no_tasks_never_completed reachable_wdb1 wproj1 (by decide) (by decide)

/-- C1: when a buyer accepts a `PENDING` request whose parent project
exists, is owned by that buyer and is `OPEN`, the operation succeeds
and performs all four writes together: the named request becomes
`ACCEPTED`, every other `PENDING` request of the same project becomes
`REJECTED`, and the project gets `assigned_solver_id =
request.solver_id` and status `ASSIGNED`. -/
theorem C1_accept_request_cascade {db : DB} {rid : Nat} {buyer : User}
    {request : ProjectRequest} {project : Project}
    (hreq : db.getRequest rid = some request)
    (hpend : request.status = .PENDING)
    (hp : db.getProject request.project_id = some project)
    (hbuy : project.buyer_id = buyer.id)
    (hopen : project.status = .OPEN) :
    ∃ db1, accept_request db rid buyer
        = .ok (db1, { request with status := .ACCEPTED }) ∧
      (db1.getRequest rid).map ProjectRequest.status
        = some RequestStatus.ACCEPTED ∧
      db1.requests.length = db.requests.length ∧
      (∀ i (h1 : i < db.requests.length) (h2 : i < db1.requests.length),
        (db.requests.get ⟨i, h1⟩).id ≠ rid →
        (db.requests.get ⟨i, h1⟩).project_id = request.project_id →
        (db.requests.get ⟨i, h1⟩).status = .PENDING →
        (db1.requests.get ⟨i, h2⟩).status = .REJECTED) ∧
      (db1.getProject request.project_id).map
          (fun p => (p.assigned_solver_id, p.status))
        = some (some request.solver_id, ProjectStatus.ASSIGNED) := by
  obtain ⟨hreqmem, hreqid⟩ := getRequest_mem hreq
  obtain ⟨hprojmem, hprojid⟩ := getProject_mem hp
  have hfRid : ∀ a : ProjectRequest,
      ((if a.id == rid then { a with status := RequestStatus.ACCEPTED }
        else if a.project_id == request.project_id && a.id != rid
            && a.status == RequestStatus.PENDING then
          { a with status := RequestStatus.REJECTED }
        else a) : ProjectRequest).id = a.id := by
    intro a; split
    · rfl
    · split <;> rfl
  have hfPid : ∀ a : Project,
      ((if a.id == request.project_id then
          { a with assigned_solver_id := some request.solver_id,
                   status := ProjectStatus.ASSIGNED }
        else a) : Project).id = a.id := by
    intro a; split <;> rfl
  refine ⟨{ db with
      requests := db.requests.map (fun r =>
        if r.id == rid then { r with status := RequestStatus.ACCEPTED }
        else if r.project_id == request.project_id && r.id != rid
            && r.status == RequestStatus.PENDING then
          { r with status := RequestStatus.REJECTED }
        else r),
      projects := db.projects.map (fun p =>
        if p.id == request.project_id then
          { p with assigned_solver_id := some request.solver_id,
                   status := ProjectStatus.ASSIGNED }
        else p) }, ?_, ?_, ?_, ?_, ?_⟩
  · unfold accept_request
    rw [hreq]
    dsimp only
    rw [if_neg (by simp [hpend])]
    rw [hp]
    dsimp only
    rw [if_neg (by simp [hbuy]), if_neg (by simp [hopen])]
  · show ((db.requests.map _).find? (fun r => r.id == rid)).map
      ProjectRequest.status = some RequestStatus.ACCEPTED
    rw [find?_map_comm _ _ _ (fun a => by rw [hfRid a])]
    rw [show db.requests.find? (fun r => r.id == rid) = some request
      from hreq]
    simp [hreqid]
  · simp
  · intro i h1 h2 hne hproj hpend2
    have hmap : (db.requests.map (fun r =>
        if r.id == rid then { r with status := RequestStatus.ACCEPTED }
        else if r.project_id == request.project_id && r.id != rid
            && r.status == RequestStatus.PENDING then
          { r with status := RequestStatus.REJECTED }
        else r)).get ⟨i, h2⟩
        = (fun r : ProjectRequest =>
        if r.id == rid then { r with status := RequestStatus.ACCEPTED }
        else if r.project_id == request.project_id && r.id != rid
            && r.status == RequestStatus.PENDING then
          { r with status := RequestStatus.REJECTED }
        else r) (db.requests.get ⟨i, h1⟩) := by
      simp
    rw [hmap]
    dsimp only
    simp only [List.get_eq_getElem] at hproj hne hpend2
    rw [if_neg (by simpa using hne)]
    rw [if_pos (by simp [hproj, hne, hpend2])]
  · show ((db.projects.map _).find?
      (fun p : Project => p.id == request.project_id)).map
        (fun p : Project => (p.assigned_solver_id, p.status))
      = some (some request.solver_id, ProjectStatus.ASSIGNED)
    rw [find?_map_comm _ _ _ (fun a => by rw [hfPid a])]
    rw [show db.projects.find? (fun p => p.id == request.project_id)
      = some project from hp]
    simp [hprojid]

/-- Witness for C1: the scenario state `wdb3` (two `PENDING` bids on
the `OPEN` project 0), accepting solver A's request 1. -/
theorem C1_witness :
    ∃ db1, accept_request wdb3 1 buyer0
        = .ok (db1, { wreqA with status := .ACCEPTED }) ∧
      (db1.getRequest 1).map ProjectRequest.status
        = some RequestStatus.ACCEPTED ∧
      db1.requests.length = wdb3.requests.length ∧
      (∀ i (h1 : i < wdb3.requests.length) (h2 : i < db1.requests.length),
        (wdb3.requests.get ⟨i, h1⟩).id ≠ 1 →
        (wdb3.requests.get ⟨i, h1⟩).project_id = wreqA.project_id →
        (wdb3.requests.get ⟨i, h1⟩).status = .PENDING →
        (db1.requests.get ⟨i, h2⟩).status = .REJECTED) ∧
      (db1.getProject wreqA.project_id).map
          (fun p => (p.assigned_solver_id, p.status))
        = some (some wreqA.solver_id, ProjectStatus.ASSIGNED) :=
  @C1_accept_request_cascade wdb3 1 buyer0 wreqA wproj1
    (by rfl) (by rfl) (by rfl) (by rfl) (by rfl)

/-- C2: when the owning buyer accepts a `PENDING_REVIEW` submission,
the submission becomes `ACCEPTED`, its task becomes `COMPLETED`, and —
counting the project's not-`COMPLETED` tasks over the rows with the
just-written task status already visible — the project becomes
`COMPLETED` exactly when that count is zero, and keeps its previous
status otherwise. -/
theorem C2_accept_submission_cascade {db : DB} {sid : Nat} {buyer : User}
    {submission : Submission} {task : Task} {project : Project}
    (hsub : db.getSubmission sid = some submission)
    (htask : db.getTask submission.task_id = some task)
    (hp : db.getProject task.project_id = some project)
    (hbuy : project.buyer_id = buyer.id)
    (hpend : submission.status = .PENDING_REVIEW) :
    ∃ db1, accept_submission db sid buyer
        = .ok (db1, { submission with status := .ACCEPTED }) ∧
      (db1.getSubmission sid).map Submission.status
        = some SubmissionStatus.ACCEPTED ∧
      (db1.getTask submission.task_id).map Task.status
        = some TaskStatus.COMPLETED ∧
      (db1.getProject task.project_id).map Project.status
        = some (if (db.tasks.map (fun t =>
            if t.id == task.id then { t with status := TaskStatus.COMPLETED }
            else t)).countP (fun t => t.project_id == project.id &&
              t.status != TaskStatus.COMPLETED) = 0
          then ProjectStatus.COMPLETED else project.status) := by
  obtain ⟨hsubmem, hsubid⟩ := getSubmission_mem hsub
  obtain ⟨htaskmem, htaskid⟩ := getTask_mem htask
  obtain ⟨hprojmem, hprojid⟩ := getProject_mem hp
  have hfSid : ∀ a : Submission,
      ((if a.id == sid then { submission with status := .ACCEPTED }
        else a) : Submission).id = a.id := by
    intro a; split
    · next hc =>
      show submission.id = a.id
      rw [hsubid]
      exact (by simpa using hc : a.id = sid).symm
    · rfl
  have hfTid : ∀ a : Task,
      ((if a.id == task.id then { a with status := TaskStatus.COMPLETED }
        else a) : Task).id = a.id := by
    intro a; split <;> rfl
  have hfCid : ∀ a : Project,
      ((if a.id == project.id then
        { a with status := ProjectStatus.COMPLETED }
        else a) : Project).id = a.id := by
    intro a; split <;> rfl
  refine ⟨{ db with
      submissions := db.submissions.map (fun s =>
        if s.id == sid then { submission with status := .ACCEPTED } else s),
      tasks := db.tasks.map (fun t =>
        if t.id == task.id then { t with status := TaskStatus.COMPLETED }
        else t),
      projects :=
        if (db.tasks.map (fun t =>
            if t.id == task.id then { t with status := TaskStatus.COMPLETED }
            else t)).countP (fun t => t.project_id == project.id &&
              t.status != TaskStatus.COMPLETED) = 0 then
          db.projects.map (fun p =>
            if p.id == project.id then
              { p with status := ProjectStatus.COMPLETED }
            else p)
        else db.projects }, ?_, ?_, ?_, ?_⟩
  · unfold accept_submission
    rw [hsub]
    dsimp only
    rw [htask]
    dsimp only
    rw [hp]
    dsimp only
    rw [if_neg (by simp [hbuy]), if_neg (by simp [hpend])]
  · show ((db.submissions.map _).find? (fun s => s.id == sid)).map
      Submission.status = some SubmissionStatus.ACCEPTED
    rw [find?_map_comm _ _ _ (fun a => by rw [hfSid a])]
    rw [show db.submissions.find? (fun s => s.id == sid) = some submission
      from hsub]
    simp [hsubid]
  · show ((db.tasks.map _).find? (fun t => t.id == submission.task_id)).map
      Task.status = some TaskStatus.COMPLETED
    rw [find?_map_comm _ _ _ (fun a => by rw [hfTid a])]
    rw [show db.tasks.find? (fun t => t.id == submission.task_id) = some task
      from htask]
    simp [htaskid]
  · by_cases hcnt : (db.tasks.map (fun t =>
        if t.id == task.id then { t with status := TaskStatus.COMPLETED }
        else t)).countP (fun t => t.project_id == project.id &&
          t.status != TaskStatus.COMPLETED) = 0
    · rw [if_pos hcnt]
      show ((db.projects.map _).find?
        (fun p => p.id == task.project_id)).map Project.status
        = some (if _ = 0 then ProjectStatus.COMPLETED else project.status)
      rw [if_pos hcnt]
      rw [find?_map_comm _ _ _ (fun a => by rw [hfCid a])]
      rw [show db.projects.find? (fun p => p.id == task.project_id)
        = some project from hp]
      simp [hprojid]
    · rw [if_neg hcnt]
      show ((db.projects.find? (fun p => p.id == task.project_id))).map
        Project.status
        = some (if _ = 0 then ProjectStatus.COMPLETED else project.status)
      rw [if_neg hcnt]
      rw [show db.projects.find? (fun p => p.id == task.project_id)
        = some project from hp]
      simp

/-- Witness for C2: the scenario state `wdb8`, accepting submission 5
on task 3 of project 0 (task 3 is the only task, so the project
auto-completes). -/
theorem C2_witness :
    ∃ db1, accept_submission wdb8 5 buyer0
        = .ok (db1, { wsub5 with status := .ACCEPTED }) ∧
      (db1.getSubmission 5).map Submission.status
        = some SubmissionStatus.ACCEPTED ∧
      (db1.getTask wsub5.task_id).map Task.status
        = some TaskStatus.COMPLETED ∧
      (db1.getProject wtask3s.project_id).map Project.status
        = some (if (wdb8.tasks.map (fun t =>
            if t.id == wtask3s.id then
              { t with status := TaskStatus.COMPLETED }
            else t)).countP (fun t => t.project_id == wproj4.id &&
              t.status != TaskStatus.COMPLETED) = 0
          then ProjectStatus.COMPLETED else wproj4.status) :=
  @C2_accept_submission_cascade wdb8 5 buyer0 wsub5 wtask3s wproj4
    (by rfl) (by rfl) (by rfl) (by rfl) (by rfl)

/-- C8: a second `accept_request` on the same request after a
successful first one fails with the `InvalidState` error (400,
"Request is not pending"); in this embedding an `.error` result is a
raised `HTTPException` aborting the transaction, so the failing call
produces no successor store — the request, the project and every other
request stay exactly as the first call left them. -/
theorem C8_second_accept_fails {db db1 : DB} {rid : Nat} {buyer : User}
    {x : ProjectRequest}
    (h1 : accept_request db rid buyer = .ok (db1, x)) :
    accept_request db1 rid buyer
      = .error ⟨400, "Request is not pending"⟩ := by
  obtain ⟨request, project, hreq, hpend, hp, hbuy, hopen, hx, hdb⟩ :=
    accept_request_ok h1
  obtain ⟨hreqmem, hreqid⟩ := getRequest_mem hreq
  have hfRid : ∀ a : ProjectRequest,
      ((if a.id == rid then { a with status := RequestStatus.ACCEPTED }
        else if a.project_id == request.project_id && a.id != rid
            && a.status == RequestStatus.PENDING then
          { a with status := RequestStatus.REJECTED }
        else a) : ProjectRequest).id = a.id := by
    intro a; split
    · rfl
    · split <;> rfl
  subst hdb
  have hget : DB.getRequest { db with
      requests := db.requests.map (fun r =>
        if r.id == rid then { r with status := RequestStatus.ACCEPTED }
        else if r.project_id == request.project_id && r.id != rid
            && r.status == RequestStatus.PENDING then
          { r with status := RequestStatus.REJECTED }
        else r),
      projects := db.projects.map (fun p =>
        if p.id == request.project_id then
          { p with assigned_solver_id := some request.solver_id,
                   status := ProjectStatus.ASSIGNED }
        else p) } rid = some { request with status := .ACCEPTED } := by
    show ((db.requests.map (fun r =>
        if r.id == rid then { r with status := RequestStatus.ACCEPTED }
        else if r.project_id == request.project_id && r.id != rid
            && r.status == RequestStatus.PENDING then
          { r with status := RequestStatus.REJECTED }
        else r)).find? (fun r => r.id == rid))
      = some { request with status := RequestStatus.ACCEPTED }
    rw [find?_map_comm _ _ _ (fun a => by rw [hfRid a])]
    rw [show db.requests.find? (fun r => r.id == rid) = some request
      from hreq]
    simp [hreqid]
  unfold accept_request
  rw [hget]
  dsimp only
  rw [if_pos (by simp)]

/-- Witness for C8: accepting request 1 a second time, after the first
accept took `wdb3` to `wdb4`, fails with 400 "Request is not pending". -/
theorem C8_witness :
    accept_request wdb4 1 buyer0
      = .error ⟨400, "Request is not pending"⟩ :=
  @C8_second_accept_fails wdb3 wdb4 1 buyer0
    ⟨1, 0, 101, "I can do it", .ACCEPTED⟩ (by rfl)

/-- C6 counterexample: the `submissions` table declares no storage-layer
uniqueness constraint at all (`models/submission.py` has no
`__table_args__`), so "at most one PENDING_REVIEW per task" is not
enforced in the persisted schema; only the request-side
`(project_id, solver_id)` constraint is declared.  This refutes the
claim that both invariants are enforced at the storage layer. -/
theorem C6_counterexample :
    (¬ ∃ c, c ∈ submissionTableUniqueConstraints) ∧
    ("uq_request_project_solver", ["project_id", "solver_id"])
      ∈ projectRequestTableUniqueConstraints := by
  constructor
  · rintro ⟨c, hc⟩
    simp [submissionTableUniqueConstraints] at hc
  · simp [projectRequestTableUniqueConstraints]

/-- C6 amended: only the Request `(project_id, solver_id)` uniqueness
is declared at the storage layer; the `submissions` table declares no
constraint, and the at-most-one-`PENDING_REVIEW`-per-task invariant is
enforced only by the application-level check inside
`create_submission`, which refuses the insert with the Conflict error
whenever a pending-review row already exists. -/
theorem C6_amended_enforcement :
    ("uq_request_project_solver", ["project_id", "solver_id"])
      ∈ projectRequestTableUniqueConstraints ∧
    submissionTableUniqueConstraints = [] ∧
    (∀ (db : DB) (u : User) (tid : Nat) (f : UploadFile)
      (notes : Option String) (task : Task) (project : Project),
      db.getTask tid = some task →
      db.getProject task.project_id = some project →
      project.assigned_solver_id = some u.id →
      (task.status = .IN_PROGRESS ∨ task.status = .REVISION_REQUESTED) →
      validate_zip f = .ok () →
      0 < countPendingReview db tid →
      create_submission db u tid f notes true
        = .error ⟨400, "Task already has a submission pending review"⟩) := by
  refine ⟨by simp [projectRequestTableUniqueConstraints], rfl, ?_⟩
  intro db u tid f notes task project htask hp hsolver hstat hz hpos
  exact create_submission_conflict htask hp hsolver hstat hz hpos

/-- C7 counterexample: the Conflict raised for a duplicate bid and the
InvalidState raised for a wrong lifecycle state both surface with
caller-facing status 400, so they are not distinguishable by status —
refuting "each error kind maps to a status distinct from every other
error kind".  (`wdb4` holds an `ASSIGNED` project — InvalidState site;
`wdb2` holds solver A's existing bid — Conflict site.) -/
theorem C7_counterexample :
    errorStatus .Conflict = errorStatus .InvalidState ∧
    create_request wdb4 solverC 0 "hi"
      = .error ⟨errorStatus .InvalidState,
          "Project is not open for requests"⟩ ∧
    create_request wdb2 solverA 0 "again"
      = .error ⟨errorStatus .Conflict,
          "You already requested this project"⟩ :=
  ⟨rfl, by rfl, by rfl⟩

/-- C7 amended: NotFound (404), Forbidden (403), Unauthenticated (401)
and StorageError (500) each carry their own status, but InvalidState,
Conflict and ValidationError all map to 400 — the duplicate-bid
Conflict is not distinguishable by status from InvalidState; only the
`detail` strings differ.  Each 4xx mapping is exhibited on the engine
itself. -/
theorem C7_amended_statuses :
    errorStatus .NotFound = 404 ∧ errorStatus .Forbidden = 403 ∧
    errorStatus .Unauthenticated = 401 ∧ errorStatus .StorageError = 500 ∧
    errorStatus .InvalidState = 400 ∧ errorStatus .Conflict = 400 ∧
    errorStatus .ValidationError = 400 ∧
    accept_request wdb3 99 buyer0 = .error ⟨404, "Request not found"⟩ ∧
    accept_request wdb3 2 ⟨999, .BUYER⟩
      = .error ⟨403, "Not your project"⟩ ∧
    create_request wdb4 solverC 0 "hi"
      = .error ⟨400, "Project is not open for requests"⟩ ∧
    create_request wdb2 solverA 0 "again"
      = .error ⟨400, "You already requested this project"⟩ ∧
    validate_zip badFile
      = .error ⟨400, "File must have .zip extension"⟩ :=
  ⟨rfl, rfl, rfl, rfl, rfl, rfl, rfl, by rfl, by rfl, by rfl, by rfl, by rfl⟩

/-- C9 counterexample: in the reachable store `wdb7`, task 3 is in a
submittable state (`REVISION_REQUESTED`, with its assigned solver A)
but already carries one `REJECTED` submission from the earlier review
round.  Running CreateSubmission → RejectSubmission → CreateSubmission
from here succeeds at every step yet leaves the task with three
submission rows, not two: the claim's "exactly two Submission rows"
fails for a task whose history is non-empty. -/
theorem C9_counterexample :
    Reachable wdb7 ∧
    (wdb7.getTask 3).map Task.status = some .REVISION_REQUESTED ∧
    (wdb7.getProject 0).map Project.assigned_solver_id
      = some (some solverA.id) ∧
    countSubmissionsFor wdb7 3 = 1 ∧
    create_submission wdb7 solverA 3 zipFile none true
      = .ok (wdb8, wsub5) ∧
    reject_submission wdb8 5 buyer0 "rework"
      = .ok (c9db2, { wsub5 with status := .REJECTED,
                                 reviewer_notes := some "rework" }) ∧
    create_submission c9db2 solverA 3 zipFile none true
      = .ok (c9db3, ⟨6, 3, "submissions/0/3/6.zip", "work.zip", 4, none,
          .PENDING_REVIEW, none⟩) ∧
    countSubmissionsFor c9db3 3 = 3 :=
  ⟨reachable_wdb7, by rfl, by rfl, by rfl, by rfl, by rfl, by rfl, by rfl⟩

/-- C9 amended: for a task in a submittable state with its assigned
solver (no submission of it pending review — true of every reachable
store in that state — and stored submission ids below the freshness
counter), CreateSubmission, then RejectSubmission by the owning buyer,
then CreateSubmission again all succeed; afterwards the task has
exactly two more submission rows than before — of the two created
here, the first ends `REJECTED` with the reviewer notes retained and
the second `PENDING_REVIEW` — and the task's status ends `SUBMITTED`. -/
theorem C9_resubmission_roundtrip {db : DB} {solver buyer : User}
    {tid : Nat} {task : Task} {project : Project} {f : UploadFile}
    {n1 n2 : Option String} {rn : String}
    (htask : db.getTask tid = some task)
    (hp : db.getProject task.project_id = some project)
    (hsolver : project.assigned_solver_id = some solver.id)
    (hbuy : project.buyer_id = buyer.id)
    (hstat : task.status = .IN_PROGRESS ∨ task.status = .REVISION_REQUESTED)
    (hz : validate_zip f = .ok ())
    (hnopend : countPendingReview db tid = 0)
    (hbound : ∀ s ∈ db.submissions, s.id < db.nextId) :
    ∃ dbA s1 dbB dbC s2,
      create_submission db solver tid f n1 true = .ok (dbA, s1) ∧
      s1.status = .PENDING_REVIEW ∧
      reject_submission dbA db.nextId buyer rn
        = .ok (dbB, { s1 with status := .REJECTED,
                              reviewer_notes := some rn }) ∧
      create_submission dbB solver tid f n2 true = .ok (dbC, s2) ∧
      s2.status = .PENDING_REVIEW ∧
      countSubmissionsFor dbC tid = countSubmissionsFor db tid + 2 ∧
      (dbC.getSubmission db.nextId).map
          (fun s => (s.status, s.reviewer_notes))
        = some (SubmissionStatus.REJECTED, some rn) ∧
      (dbC.getSubmission (db.nextId + 1)).map Submission.status
        = some SubmissionStatus.PENDING_REVIEW ∧
      (dbC.getTask tid).map Task.status = some TaskStatus.SUBMITTED := by
  obtain ⟨htaskmem, htaskid⟩ := getTask_mem htask
  have hzero := List.countP_eq_zero.mp hnopend
  -- the rows written by the three steps
  set s1E : Submission :=
    { id := db.nextId, task_id := tid,
      file_url := "submissions/" ++ toString task.project_id ++ "/" ++
        toString tid ++ "/" ++ toString db.nextId ++ ".zip",
      file_name := f.filename, file_size := f.size, notes := n1,
      status := .PENDING_REVIEW, reviewer_notes := none } with hs1E
  set s2E : Submission :=
    { id := db.nextId + 1, task_id := tid,
      file_url := "submissions/" ++ toString task.project_id ++ "/" ++
        toString tid ++ "/" ++ toString (db.nextId + 1) ++ ".zip",
      file_name := f.filename, file_size := f.size, notes := n2,
      status := .PENDING_REVIEW, reviewer_notes := none } with hs2E
  have hanyfalse : ¬(db.submissions.any (fun s => s.task_id == tid &&
      s.status == SubmissionStatus.PENDING_REVIEW) = true) := by
    rw [List.any_eq_true]
    rintro ⟨a, ha, hpa⟩
    exact hzero a ha hpa
  -- lookups in the store after the first upload
  have hfindS1 : (db.submissions ++ [s1E]).find?
      (fun s => s.id == db.nextId) = some s1E := by
    rw [find?_append_none _ _ _ (fun a ha => by
      have := hbound a ha
      simp only [beq_eq_false_iff_ne, ne_eq]
      omega)]
    rw [List.find?_cons_of_pos _ (by simp [hs1E])]
  have hfindT1 : (db.tasks.map (fun t =>
      if t.id == tid then { t with status := TaskStatus.SUBMITTED }
      else t)).find? (fun t => t.id == tid)
      = some { task with status := TaskStatus.SUBMITTED } := by
    rw [find?_map_comm _ _ _ (fun a => by split <;> rfl)]
    rw [show db.tasks.find? (fun t => t.id == tid) = some task from htask]
    simp [htaskid]
  -- lookups in the store after the rejection
  have hfindT2 : ((db.tasks.map (fun t =>
      if t.id == tid then { t with status := TaskStatus.SUBMITTED }
      else t)).map (fun t =>
      if t.id == task.id then
        { t with status := TaskStatus.REVISION_REQUESTED }
      else t)).find? (fun t => t.id == tid)
      = some { task with status := TaskStatus.REVISION_REQUESTED } := by
    rw [find?_map_comm _ _ _ (fun a => by split <;> rfl)]
    rw [hfindT1]
    simp [htaskid]
  have hfindS2 : ((db.submissions ++ [s1E]).map (fun s =>
      if s.id == db.nextId then
        { s1E with status := SubmissionStatus.REJECTED,
                   reviewer_notes := some rn }
      else s)).find? (fun s => s.id == db.nextId)
      = some { s1E with status := SubmissionStatus.REJECTED,
                        reviewer_notes := some rn } := by
    rw [find?_map_comm _ _ _ (fun a => by
      dsimp only
      split
      · next hc => simp [hs1E, hc]
      · rfl)]
    rw [hfindS1]
    simp [hs1E]
  have hany2 : ¬(((db.submissions ++ [s1E]).map (fun s =>
      if s.id == db.nextId then
        { s1E with status := SubmissionStatus.REJECTED,
                   reviewer_notes := some rn }
      else s)).any (fun s => s.task_id == tid &&
        s.status == SubmissionStatus.PENDING_REVIEW) = true) := by
    rw [List.any_eq_true]
    rintro ⟨a, ha, hpa⟩
    obtain ⟨b, hb, rfl⟩ := List.mem_map.mp ha
    by_cases hc : (b.id == db.nextId) = true
    · rw [if_pos hc] at hpa
      simp [hs1E] at hpa
    · rw [if_neg (by simpa using hc)] at hpa
      rcases List.mem_append.mp hb with hb | hb
      · exact hzero b hb hpa
      · rw [List.mem_singleton.mp hb] at hc
        exact hc (by simp [hs1E])
  refine ⟨{ db with
      submissions := db.submissions ++ [s1E],
      tasks := db.tasks.map (fun t =>
        if t.id == tid then { t with status := TaskStatus.SUBMITTED }
        else t),
      nextId := db.nextId + 1 }, s1E,
    { db with
      submissions := (db.submissions ++ [s1E]).map (fun s =>
        if s.id == db.nextId then
          { s1E with status := SubmissionStatus.REJECTED,
                     reviewer_notes := some rn }
        else s),
      tasks := (db.tasks.map (fun t =>
        if t.id == tid then { t with status := TaskStatus.SUBMITTED }
        else t)).map (fun t =>
        if t.id == task.id then
          { t with status := TaskStatus.REVISION_REQUESTED }
        else t),
      nextId := db.nextId + 1 },
    { db with
      submissions := ((db.submissions ++ [s1E]).map (fun s =>
        if s.id == db.nextId then
          { s1E with status := SubmissionStatus.REJECTED,
                     reviewer_notes := some rn }
        else s)) ++ [s2E],
      tasks := ((db.tasks.map (fun t =>
        if t.id == tid then { t with status := TaskStatus.SUBMITTED }
        else t)).map (fun t =>
        if t.id == task.id then
          { t with status := TaskStatus.REVISION_REQUESTED }
        else t)).map (fun t =>
        if t.id == tid then { t with status := TaskStatus.SUBMITTED }
        else t),
      nextId := db.nextId + 1 + 1 }, s2E,
    ?_, rfl, ?_, ?_, rfl, ?_, ?_, ?_, ?_⟩
  · -- first upload succeeds
    unfold create_submission
    rw [htask]
    dsimp only
    rw [hp]
    dsimp only
    rw [if_neg (by simp [hsolver])]
    rw [if_neg (by simp [hstat])]
    rw [hz]
    dsimp only
    rw [if_neg (by simp)]
    rw [if_neg hanyfalse]
  · -- the rejection succeeds
    unfold reject_submission DB.getSubmission DB.getTask DB.getProject
    dsimp only
    rw [hfindS1]
    dsimp only
    rw [hfindT1]
    dsimp only
    rw [show db.projects.find? (fun p => p.id == task.project_id)
      = some project from hp]
    dsimp only
    rw [if_neg (by simp [hbuy])]
    rw [if_neg (by simp [hs1E])]
  · -- the second upload succeeds
    unfold create_submission DB.getTask DB.getProject
    dsimp only
    rw [hfindT2]
    dsimp only
    rw [show db.projects.find? (fun p => p.id == task.project_id)
      = some project from hp]
    dsimp only
    rw [if_neg (by simp [hsolver])]
    rw [if_neg (by simp)]
    rw [hz]
    dsimp only
    rw [if_neg (by simp)]
    rw [if_neg hany2]
  · -- exactly two more rows for the task
    unfold countSubmissionsFor
    dsimp only
    rw [List.countP_append]
    rw [countP_map_congr _ _ (fun s : Submission => s.task_id == tid) _
      (fun a ha => by
        dsimp only
        split
        · next hc =>
          rcases List.mem_append.mp ha with ha | ha
          · exact absurd hc (by
              have := hbound a ha
              simp only [beq_eq_false_iff_ne, ne_eq, Bool.not_eq_true]
              omega)
          · rw [List.mem_singleton.mp ha]
        · rfl)]
    rw [List.countP_append, List.countP_cons, List.countP_nil,
      List.countP_cons, List.countP_nil]
    simp [hs1E, hs2E]
  · -- the first created row ends REJECTED with the notes retained
    unfold DB.getSubmission
    dsimp only
    rw [find?_append_first _ hfindS2]
    rfl
  · -- the second created row is PENDING_REVIEW
    unfold DB.getSubmission
    dsimp only
    rw [find?_append_none _ _ _ (fun a ha => by
      obtain ⟨b, hb, rfl⟩ := List.mem_map.mp ha
      by_cases hc : (b.id == db.nextId) = true
      · rw [if_pos hc]
        simp [hs1E]
      · rw [if_neg (by simpa using hc)]
        rcases List.mem_append.mp hb with hb | hb
        · have := hbound b hb
          simp only [beq_eq_false_iff_ne, ne_eq]
          omega
        · rw [List.mem_singleton.mp hb]
          simp [hs1E])]
    rw [List.find?_cons_of_pos _ (by simp [hs2E])]
    rfl
  · -- the task ends SUBMITTED
    unfold DB.getTask
    dsimp only
    rw [find?_map_comm _ _ _ (fun a => by split <;> rfl)]
    rw [hfindT2]
    simp [htaskid]

/-- Witness for the amended C9 at the reachable store `wdb5` (fresh
task 3, `IN_PROGRESS`, no submission history). -/
theorem C9_witness :
    ∃ dbA s1 dbB dbC s2,
      create_submission wdb5 solverA 3 zipFile none true
        = .ok (dbA, s1) ∧
      s1.status = .PENDING_REVIEW ∧
      reject_submission dbA wdb5.nextId buyer0 "missing tests"
        = .ok (dbB, { s1 with status := .REJECTED,
                              reviewer_notes := some "missing tests" }) ∧
      create_submission dbB solverA 3 zipFile none true = .ok (dbC, s2) ∧
      s2.status = .PENDING_REVIEW ∧
      countSubmissionsFor dbC 3 = countSubmissionsFor wdb5 3 + 2 ∧
      (dbC.getSubmission wdb5.nextId).map
          (fun s => (s.status, s.reviewer_notes))
        = some (SubmissionStatus.REJECTED, some "missing tests") ∧
      (dbC.getSubmission (wdb5.nextId + 1)).map Submission.status
        = some SubmissionStatus.PENDING_REVIEW ∧
      (dbC.getTask 3).map Task.status = some TaskStatus.SUBMITTED :=
  @C9_resubmission_roundtrip wdb5 solverA buyer0 3 wtask3 wproj4 zipFile
    none none "missing tests" (by rfl) (by rfl) (by rfl) (by rfl)
    (Or.inl (by rfl)) (by rfl) (by rfl) (by decide)

end Marketplace
